import Mathlib

/-!
# Submarine custom-resource schema (`pkg/apis/submarine/v1alpha1/types.go`)

The source file declares the records of the `Submarine` resource together with
their per-field JSON tags.  This development embeds

* the records themselves (a Go pointer field `*T` is an `Option T`, `nil` being
  `none`; a Go `string` is a sequence of bytes, not necessarily valid UTF-8),
* the document those tags make Go's JSON encoder produce (`encode`), and
* the reading of a document back into a record by Go's JSON decoder
  (`decodeInto`, `decode`),

at the level of JSON documents (trees whose strings are Unicode text), not of
their byte serialisation.  The encoder writes a Go string as its runes, with
U+FFFD for every byte that is not part of a valid UTF-8 sequence; the decoder
stores the UTF-8 bytes of a JSON string.  The decoder matches an object key
against a tag name exactly or, failing that, under case folding.
-/

namespace V1alpha1

/-! ## JSON documents -/

/-- JSON documents.  A number literal written in integer syntax is `int`; a
number literal with a fraction or an exponent part is `real` and keeps its
text. Objects keep their members in document order. -/
inductive JSON where
  | null
  | bool (b : Bool)
  | int (i : Int)
  | real (lit : String)
  | str (s : String)
  | arr (xs : List JSON)
  | obj (members : List (String × JSON))

namespace JSON

/-- The members of an object document (no members for any other document). -/
def members : JSON → List (String × JSON)
  | obj ms => ms
  | _ => []

/-- The document has `k` among its top-level keys. -/
def hasKey (j : JSON) (k : String) : Bool :=
  j.members.any (fun kv => kv.1 == k)

/-- The value of the first top-level member with key `k`. -/
def lookup (j : JSON) (k : String) : Option JSON :=
  (j.members.find? (fun kv => kv.1 == k)).map Prod.snd

end JSON

/-! ## Go strings -/

/-- A byte. -/
abbrev byte := Fin 256

/-- The Go type `string`: a sequence of bytes, not necessarily valid UTF-8. -/
structure GoString where
  bytes : List byte
deriving DecidableEq

/-- The UTF-8 bytes of one character. -/
def utf8EncodeChar (c : Char) : List byte :=
  let n := c.toNat
  if n < 0x80 then [Fin.ofNat n]
  else if n < 0x800 then [Fin.ofNat (0xC0 + n / 64), Fin.ofNat (0x80 + n % 64)]
  else if n < 0x10000 then
    [Fin.ofNat (0xE0 + n / 4096), Fin.ofNat (0x80 + n / 64 % 64), Fin.ofNat (0x80 + n % 64)]
  else
    [Fin.ofNat (0xF0 + n / 262144), Fin.ofNat (0x80 + n / 4096 % 64),
      Fin.ofNat (0x80 + n / 64 % 64), Fin.ofNat (0x80 + n % 64)]

/-- The UTF-8 bytes of a sequence of characters. -/
def utf8Encode : List Char → List byte
  | [] => []
  | c :: cs => utf8EncodeChar c ++ utf8Encode cs

/-- The Go string holding the UTF-8 encoding of a text. -/
def GoString.ofText (t : String) : GoString := ⟨utf8Encode t.data⟩

/-- The Unicode replacement character U+FFFD, Go's `utf8.RuneError`. -/
def RuneError : Char := Char.ofNat 0xFFFD

/-- The byte is a UTF-8 continuation byte. -/
def isCont (b : byte) : Bool := 0x80 ≤ b.val && b.val ≤ 0xBF

/-- Go's `utf8.DecodeRuneInString` on a non-empty string: the first rune and
its width in bytes; an invalid or truncated sequence gives `RuneError` with
width 1. -/
def decodeRune : List byte → Char × Nat
  | [] => (RuneError, 1)
  | b0 :: rest =>
    if b0.val < 0x80 then (Char.ofNat b0.val, 1)
    else if 0xC2 ≤ b0.val ∧ b0.val ≤ 0xDF then
      match rest with
      | b1 :: _ =>
        if isCont b1 then (Char.ofNat ((b0.val - 0xC0) * 64 + (b1.val - 0x80)), 2)
        else (RuneError, 1)
      | [] => (RuneError, 1)
    else if 0xE0 ≤ b0.val ∧ b0.val ≤ 0xEF then
      match rest with
      | b1 :: b2 :: _ =>
        if (if b0.val = 0xE0 then 0xA0 else 0x80) ≤ b1.val
            ∧ b1.val ≤ (if b0.val = 0xED then 0x9F else 0xBF) ∧ isCont b2 then
          (Char.ofNat ((b0.val - 0xE0) * 4096 + (b1.val - 0x80) * 64 + (b2.val - 0x80)), 3)
        else (RuneError, 1)
      | _ => (RuneError, 1)
    else if 0xF0 ≤ b0.val ∧ b0.val ≤ 0xF4 then
      match rest with
      | b1 :: b2 :: b3 :: _ =>
        if (if b0.val = 0xF0 then 0x90 else 0x80) ≤ b1.val
            ∧ b1.val ≤ (if b0.val = 0xF4 then 0x8F else 0xBF) ∧ isCont b2 ∧ isCont b3 then
          (Char.ofNat ((b0.val - 0xF0) * 262144 + (b1.val - 0x80) * 4096
            + (b2.val - 0x80) * 64 + (b3.val - 0x80)), 4)
        else (RuneError, 1)
      | _ => (RuneError, 1)
    else (RuneError, 1)

/-- The runes of a byte string as the JSON encoder reads them: rune by rune from
the left, `fuel` bounding the number of runes. -/
def decodeRunesAux : Nat → List byte → List Char
  | 0, _ => []
  | _, [] => []
  | fuel + 1, b :: bs =>
    (decodeRune (b :: bs)).1 :: decodeRunesAux fuel ((b :: bs).drop (decodeRune (b :: bs)).2)

/-- The runes of a byte string; a string has at most as many runes as bytes. -/
def decodeRunes (s : List byte) : List Char := decodeRunesAux s.length s

/-- The text the JSON encoder writes for a Go string: its runes, each byte that
is not part of a valid UTF-8 sequence replaced by U+FFFD. -/
def GoString.toText (s : GoString) : String := ⟨decodeRunes s.bytes⟩

/-- The empty Go string. -/
def GoString.empty : GoString := ⟨[]⟩

/-- A Go string is valid UTF-8 when it is the UTF-8 encoding of a text. -/
def GoString.Valid (s : GoString) : Prop := ∃ t : String, s = GoString.ofText t

/-- A text written where a Go string is expected stands for its UTF-8 bytes, as
a Go string literal does. -/
instance : Coe String GoString := ⟨GoString.ofText⟩

/-! ## Key matching of the decoder -/

/-- Case folding of one rune, as far as it can relate a rune to an ASCII
letter: an upper-case ASCII letter folds to its lower case, U+017F (long s) to
`s` and U+212A (Kelvin sign) to `k`; every other rune is left as it is. -/
def foldRune (c : Char) : Char :=
  if c = Char.ofNat 0x17F then 's'
  else if c = Char.ofNat 0x212A then 'k'
  else c.toLower

/-- Equality of a key and an ASCII tag name under case folding. -/
def equalFold (key tag : String) : Bool :=
  key.data.map foldRune == tag.data.map foldRune

/-- The decoder's field lookup for one field: the key is the tag name, or equals
it under case folding.  (No two tag names of one record of the source are equal
under case folding, so a key selects at most one field.) -/
def matchesTag (tag key : String) : Bool :=
  key == tag || equalFold key tag

/-! ## Go scalar types -/

/-- The Go type `int32`: the integers from `-2^31` to `2^31 - 1`. -/
abbrev int32 := {i : Int // -2147483648 ≤ i ∧ i ≤ 2147483647}

/-- The zero value of `int32`. -/
def int32.zero : int32 := ⟨0, by decide⟩

/-! ## The records of `types.go` -/

/-- Record `SubmarineServer` of the source. -/
structure SubmarineServer where
  Image : GoString
  Replicas : Option int32
deriving DecidableEq

/-- Record `SubmarineDatabase` of the source. -/
structure SubmarineDatabase where
  Image : GoString
  Replicas : Option int32
  StorageSize : GoString
  MysqlRootPasswordSecret : GoString
deriving DecidableEq

/-- Record `SubmarineTensorboard` of the source. -/
structure SubmarineTensorboard where
  Enabled : Option Bool
  StorageSize : GoString
deriving DecidableEq

/-- Record `SubmarineMlflow` of the source. -/
structure SubmarineMlflow where
  Enabled : Option Bool
  StorageSize : GoString
deriving DecidableEq

/-- Record `SubmarineMinio` of the source. -/
structure SubmarineMinio where
  Enabled : Option Bool
  StorageSize : GoString
deriving DecidableEq

/-- Record `SubmarineStorage` of the source. -/
structure SubmarineStorage where
  StorageType : GoString
  HostPath : GoString
  NfsPath : GoString
  NfsIP : GoString
deriving DecidableEq

/-- Record `SubmarineSpec` of the source: a version and six nullable sub-specs. -/
structure SubmarineSpec where
  Version : GoString
  Server : Option SubmarineServer
  Database : Option SubmarineDatabase
  Tensorboard : Option SubmarineTensorboard
  Mlflow : Option SubmarineMlflow
  Minio : Option SubmarineMinio
  Storage : Option SubmarineStorage
deriving DecidableEq

/-- Type `SubmarineStateType` of the source: a named string type. -/
abbrev SubmarineStateType := GoString

/-- Constant `NewState`. -/
def NewState : SubmarineStateType := ""
/-- Constant `CreatingState`. -/
def CreatingState : SubmarineStateType := "CREATING"
/-- Constant `RunningState`. -/
def RunningState : SubmarineStateType := "RUNNING"
/-- Constant `FailedState`. -/
def FailedState : SubmarineStateType := "FAILED"

/-- Record `SubmarineState` of the source. -/
structure SubmarineState where
  State : SubmarineStateType
  ErrorMessage : GoString
deriving DecidableEq

/-- Record `SubmarineStatus` of the source; the embedded `SubmarineState`
carries a tag with a name, so it is a field of that name. -/
structure SubmarineStatus where
  AvailableServerReplicas : int32
  AvailableDatabaseReplicas : int32
  SubmarineState : SubmarineState
deriving DecidableEq

/-- The `metav1.TypeMeta` record embedded inline by `Submarine` and
`SubmarineList` (declared in the imported package `metav1`). -/
structure TypeMeta where
  Kind : GoString
  APIVersion : GoString
deriving DecidableEq

/-- Record `Submarine` of the source.  The imported `metav1.ObjectMeta` is the
type parameter `M`. -/
structure Submarine (M : Type) where
  TypeMeta : TypeMeta
  ObjectMeta : M
  Spec : SubmarineSpec
  Status : SubmarineStatus
deriving DecidableEq

/-- Record `SubmarineList` of the source.  The imported `metav1.ListMeta` is the
type parameter `L`; the slice `Items` is `none` when it is `nil`. -/
structure SubmarineList (M L : Type) where
  TypeMeta : TypeMeta
  ListMeta : L
  Items : Option (List (Submarine M))

/-! ## Zero values -/

/-- Zero value of `SubmarineServer`. -/
def SubmarineServer.zero : SubmarineServer := ⟨GoString.empty, none⟩
/-- Zero value of `SubmarineDatabase`. -/
def SubmarineDatabase.zero : SubmarineDatabase := ⟨GoString.empty, none, GoString.empty, GoString.empty⟩
/-- Zero value of `SubmarineTensorboard`. -/
def SubmarineTensorboard.zero : SubmarineTensorboard := ⟨none, GoString.empty⟩
/-- Zero value of `SubmarineMlflow`. -/
def SubmarineMlflow.zero : SubmarineMlflow := ⟨none, GoString.empty⟩
/-- Zero value of `SubmarineMinio`. -/
def SubmarineMinio.zero : SubmarineMinio := ⟨none, GoString.empty⟩
/-- Zero value of `SubmarineStorage`. -/
def SubmarineStorage.zero : SubmarineStorage := ⟨GoString.empty, GoString.empty, GoString.empty, GoString.empty⟩
/-- Zero value of `SubmarineSpec`. -/
def SubmarineSpec.zero : SubmarineSpec := ⟨GoString.empty, none, none, none, none, none, none⟩
/-- Zero value of `SubmarineState`. -/
def SubmarineState.zero : SubmarineState := ⟨GoString.empty, GoString.empty⟩
/-- Zero value of `SubmarineStatus`. -/
def SubmarineStatus.zero : SubmarineStatus := ⟨int32.zero, int32.zero, SubmarineState.zero⟩
/-- Zero value of `TypeMeta`. -/
def TypeMeta.zero : TypeMeta := ⟨GoString.empty, GoString.empty⟩

/-! ## Encoding: the document the field tags produce -/

/-- A field whose tag is `json:"name"`: always written. -/
def field (name : String) (v : JSON) : List (String × JSON) := [(name, v)]

/-- A string field whose tag is `json:"name,omitempty"`: left out when the
string is empty. -/
def fieldOmitEmptyString (name : String) (s : GoString) : List (String × JSON) :=
  if s.bytes = [] then [] else [(name, JSON.str s.toText)]

/-- A record-valued field whose tag is `json:"name,omitempty"`: a record is
never an empty value, so the field is always written. -/
def fieldOmitEmptyStruct (name : String) (v : JSON) : List (String × JSON) := [(name, v)]

/-- The document of an `int32`. -/
def encodeInt32 (n : int32) : JSON := JSON.int n.val

/-- The document of a pointer: `null` for `nil`, else the pointee's. -/
def encodePtr {α : Type} (enc : α → JSON) : Option α → JSON
  | none => JSON.null
  | some a => enc a

/-- Document of a `SubmarineServer`. -/
def SubmarineServer.encode (s : SubmarineServer) : JSON :=
  JSON.obj (field "image" (JSON.str s.Image.toText)
    ++ field "replicas" (encodePtr encodeInt32 s.Replicas))

/-- Document of a `SubmarineDatabase`. -/
def SubmarineDatabase.encode (s : SubmarineDatabase) : JSON :=
  JSON.obj (field "image" (JSON.str s.Image.toText)
    ++ field "replicas" (encodePtr encodeInt32 s.Replicas)
    ++ field "storageSize" (JSON.str s.StorageSize.toText)
    ++ field "mysqlRootPasswordSecret" (JSON.str s.MysqlRootPasswordSecret.toText))

/-- Document of a `SubmarineTensorboard`. -/
def SubmarineTensorboard.encode (s : SubmarineTensorboard) : JSON :=
  JSON.obj (field "enabled" (encodePtr JSON.bool s.Enabled)
    ++ field "storageSize" (JSON.str s.StorageSize.toText))

/-- Document of a `SubmarineMlflow`. -/
def SubmarineMlflow.encode (s : SubmarineMlflow) : JSON :=
  JSON.obj (field "enabled" (encodePtr JSON.bool s.Enabled)
    ++ field "storageSize" (JSON.str s.StorageSize.toText))

/-- Document of a `SubmarineMinio`. -/
def SubmarineMinio.encode (s : SubmarineMinio) : JSON :=
  JSON.obj (field "enabled" (encodePtr JSON.bool s.Enabled)
    ++ field "storageSize" (JSON.str s.StorageSize.toText))

/-- Document of a `SubmarineStorage`. -/
def SubmarineStorage.encode (s : SubmarineStorage) : JSON :=
  JSON.obj (field "storageType" (JSON.str s.StorageType.toText)
    ++ field "hostPath" (JSON.str s.HostPath.toText)
    ++ field "nfsPath" (JSON.str s.NfsPath.toText)
    ++ field "nfsIP" (JSON.str s.NfsIP.toText))

/-- Document of a `SubmarineSpec`. -/
def SubmarineSpec.encode (s : SubmarineSpec) : JSON :=
  JSON.obj (field "version" (JSON.str s.Version.toText)
    ++ field "server" (encodePtr SubmarineServer.encode s.Server)
    ++ field "database" (encodePtr SubmarineDatabase.encode s.Database)
    ++ field "tensorboard" (encodePtr SubmarineTensorboard.encode s.Tensorboard)
    ++ field "mlflow" (encodePtr SubmarineMlflow.encode s.Mlflow)
    ++ field "minio" (encodePtr SubmarineMinio.encode s.Minio)
    ++ field "storage" (encodePtr SubmarineStorage.encode s.Storage))

/-- Document of a `SubmarineState`. -/
def SubmarineState.encode (s : SubmarineState) : JSON :=
  JSON.obj (field "state" (JSON.str s.State.toText)
    ++ fieldOmitEmptyString "errorMessage" s.ErrorMessage)

/-- Document of a `SubmarineStatus`. -/
def SubmarineStatus.encode (s : SubmarineStatus) : JSON :=
  JSON.obj (field "availableServerReplicas" (encodeInt32 s.AvailableServerReplicas)
    ++ field "availableDatabaseReplicas" (encodeInt32 s.AvailableDatabaseReplicas)
    ++ fieldOmitEmptyStruct "submarineState" (SubmarineState.encode s.SubmarineState))

/-- Members of the inline `metav1.TypeMeta` (`kind,omitempty` and
`apiVersion,omitempty`). -/
def TypeMeta.encodeInline (t : TypeMeta) : List (String × JSON) :=
  fieldOmitEmptyString "kind" t.Kind ++ fieldOmitEmptyString "apiVersion" t.APIVersion

/-- The decoder's error: a JSON value that cannot be read into a Go type (Go's
`UnmarshalTypeError`, of which the destination type is kept), or an error raised
by the decoder of an imported type. -/
inductive DecodeError where
  | unmarshalType (goType : String)
  | imported (message : String)
deriving DecidableEq

/-- The codec of the imported `metav1.ObjectMeta`, a parameter of the
embedding: its zero value, its document, and the reading of a document into an
existing value. -/
structure MetaCodec (M : Type) where
  zero : M
  encode : M → JSON
  decodeInto : M → JSON → Except DecodeError M

/-- Document of a `Submarine`: the inline type members, then `metadata`
(`omitempty` on a record), `spec` and `status`. -/
def Submarine.encode {M : Type} (mc : MetaCodec M) (v : Submarine M) : JSON :=
  JSON.obj (TypeMeta.encodeInline v.TypeMeta
    ++ fieldOmitEmptyStruct "metadata" (mc.encode v.ObjectMeta)
    ++ field "spec" (SubmarineSpec.encode v.Spec)
    ++ field "status" (SubmarineStatus.encode v.Status))

/-! ## Decoding: reading a document into a record

Decoding writes into a destination that starts as the zero value.  A member
whose key is no declared tag is skipped; `null` leaves a non-pointer destination
as it is and sets a pointer to `nil`; a value of the wrong JSON type is a
structural error.  A member is read into the field whose tag its key matches
(`matchesTag`). -/

/-- The structural decode error: the document cannot be read into `goType`. -/
def typeError {α : Type} (goType : String) : Except DecodeError α :=
  Except.error (DecodeError.unmarshalType goType)

/-- Read a document into a `string` destination: a JSON string is stored as its
UTF-8 bytes. -/
def decodeString (dst : GoString) : JSON → Except DecodeError GoString
  | JSON.null => Except.ok dst
  | JSON.str s => Except.ok (GoString.ofText s)
  | _ => typeError "string"

/-- Read a document into an `int32` destination: only an integer literal in
range fits. -/
def decodeInt32 (dst : int32) : JSON → Except DecodeError int32
  | JSON.null => Except.ok dst
  | JSON.int i =>
    if h : -2147483648 ≤ i ∧ i ≤ 2147483647 then Except.ok ⟨i, h⟩
    else typeError "int32"
  | _ => typeError "int32"

/-- Read a document into a `bool` destination. -/
def decodeBool (dst : Bool) : JSON → Except DecodeError Bool
  | JSON.null => Except.ok dst
  | JSON.bool b => Except.ok b
  | _ => typeError "bool"

/-- Read a document into a pointer destination: `null` makes it `nil`, any other
document is read into the pointee (a fresh zero value when the pointer was
`nil`). -/
def decodePtr {α : Type} (zero : α) (decodeInto : α → JSON → Except DecodeError α)
    (dst : Option α) : JSON → Except DecodeError (Option α)
  | JSON.null => Except.ok none
  | j => (decodeInto (dst.getD zero) j).map some

/-- Read the members of an object one after the other into the destination. -/
def decodeMembers {α : Type} (setField : α → String → JSON → Except DecodeError α) :
    α → List (String × JSON) → Except DecodeError α
  | dst, [] => Except.ok dst
  | dst, kv :: ms =>
    match setField dst kv.1 kv.2 with
    | Except.ok d => decodeMembers setField d ms
    | Except.error e => Except.error e

/-- Read a document into a record destination: `null` leaves it, an object is
read member by member, anything else is a structural error. -/
def decodeStruct {α : Type} (goType : String)
    (setField : α → String → JSON → Except DecodeError α) (dst : α) : JSON → Except DecodeError α
  | JSON.null => Except.ok dst
  | JSON.obj ms => decodeMembers setField dst ms
  | _ => typeError goType

/-- Read one member into a `SubmarineServer`. -/
def SubmarineServer.setField (dst : SubmarineServer) (k : String) (v : JSON) :
    Except DecodeError SubmarineServer :=
  if matchesTag "image" k then (decodeString dst.Image v).map (fun x => { dst with Image := x })
  else if matchesTag "replicas" k then
    (decodePtr int32.zero decodeInt32 dst.Replicas v).map (fun x => { dst with Replicas := x })
  else Except.ok dst

/-- Read a document into a `SubmarineServer`. -/
def SubmarineServer.decodeInto : SubmarineServer → JSON → Except DecodeError SubmarineServer :=
  decodeStruct "v1alpha1.SubmarineServer" SubmarineServer.setField

/-- Decode a `SubmarineServer` document. -/
def SubmarineServer.decode (j : JSON) : Except DecodeError SubmarineServer :=
  SubmarineServer.decodeInto SubmarineServer.zero j

/-- Read one member into a `SubmarineDatabase`. -/
def SubmarineDatabase.setField (dst : SubmarineDatabase) (k : String) (v : JSON) :
    Except DecodeError SubmarineDatabase :=
  if matchesTag "image" k then (decodeString dst.Image v).map (fun x => { dst with Image := x })
  else if matchesTag "replicas" k then
    (decodePtr int32.zero decodeInt32 dst.Replicas v).map (fun x => { dst with Replicas := x })
  else if matchesTag "storageSize" k then
    (decodeString dst.StorageSize v).map (fun x => { dst with StorageSize := x })
  else if matchesTag "mysqlRootPasswordSecret" k then
    (decodeString dst.MysqlRootPasswordSecret v).map
      (fun x => { dst with MysqlRootPasswordSecret := x })
  else Except.ok dst

/-- Read a document into a `SubmarineDatabase`. -/
def SubmarineDatabase.decodeInto : SubmarineDatabase → JSON → Except DecodeError SubmarineDatabase :=
  decodeStruct "v1alpha1.SubmarineDatabase" SubmarineDatabase.setField

/-- Decode a `SubmarineDatabase` document. -/
def SubmarineDatabase.decode (j : JSON) : Except DecodeError SubmarineDatabase :=
  SubmarineDatabase.decodeInto SubmarineDatabase.zero j

/-- Read one member into a `SubmarineTensorboard`. -/
def SubmarineTensorboard.setField (dst : SubmarineTensorboard) (k : String) (v : JSON) :
    Except DecodeError SubmarineTensorboard :=
  if matchesTag "enabled" k then
    (decodePtr false decodeBool dst.Enabled v).map (fun x => { dst with Enabled := x })
  else if matchesTag "storageSize" k then
    (decodeString dst.StorageSize v).map (fun x => { dst with StorageSize := x })
  else Except.ok dst

/-- Read a document into a `SubmarineTensorboard`. -/
def SubmarineTensorboard.decodeInto :
    SubmarineTensorboard → JSON → Except DecodeError SubmarineTensorboard :=
  decodeStruct "v1alpha1.SubmarineTensorboard" SubmarineTensorboard.setField

/-- Decode a `SubmarineTensorboard` document. -/
def SubmarineTensorboard.decode (j : JSON) : Except DecodeError SubmarineTensorboard :=
  SubmarineTensorboard.decodeInto SubmarineTensorboard.zero j

/-- Read one member into a `SubmarineMlflow`. -/
def SubmarineMlflow.setField (dst : SubmarineMlflow) (k : String) (v : JSON) :
    Except DecodeError SubmarineMlflow :=
  if matchesTag "enabled" k then
    (decodePtr false decodeBool dst.Enabled v).map (fun x => { dst with Enabled := x })
  else if matchesTag "storageSize" k then
    (decodeString dst.StorageSize v).map (fun x => { dst with StorageSize := x })
  else Except.ok dst

/-- Read a document into a `SubmarineMlflow`. -/
def SubmarineMlflow.decodeInto : SubmarineMlflow → JSON → Except DecodeError SubmarineMlflow :=
  decodeStruct "v1alpha1.SubmarineMlflow" SubmarineMlflow.setField

/-- Decode a `SubmarineMlflow` document. -/
def SubmarineMlflow.decode (j : JSON) : Except DecodeError SubmarineMlflow :=
  SubmarineMlflow.decodeInto SubmarineMlflow.zero j

/-- Read one member into a `SubmarineMinio`. -/
def SubmarineMinio.setField (dst : SubmarineMinio) (k : String) (v : JSON) :
    Except DecodeError SubmarineMinio :=
  if matchesTag "enabled" k then
    (decodePtr false decodeBool dst.Enabled v).map (fun x => { dst with Enabled := x })
  else if matchesTag "storageSize" k then
    (decodeString dst.StorageSize v).map (fun x => { dst with StorageSize := x })
  else Except.ok dst

/-- Read a document into a `SubmarineMinio`. -/
def SubmarineMinio.decodeInto : SubmarineMinio → JSON → Except DecodeError SubmarineMinio :=
  decodeStruct "v1alpha1.SubmarineMinio" SubmarineMinio.setField

/-- Decode a `SubmarineMinio` document. -/
def SubmarineMinio.decode (j : JSON) : Except DecodeError SubmarineMinio :=
  SubmarineMinio.decodeInto SubmarineMinio.zero j

/-- Read one member into a `SubmarineStorage`. -/
def SubmarineStorage.setField (dst : SubmarineStorage) (k : String) (v : JSON) :
    Except DecodeError SubmarineStorage :=
  if matchesTag "storageType" k then
    (decodeString dst.StorageType v).map (fun x => { dst with StorageType := x })
  else if matchesTag "hostPath" k then
    (decodeString dst.HostPath v).map (fun x => { dst with HostPath := x })
  else if matchesTag "nfsPath" k then
    (decodeString dst.NfsPath v).map (fun x => { dst with NfsPath := x })
  else if matchesTag "nfsIP" k then
    (decodeString dst.NfsIP v).map (fun x => { dst with NfsIP := x })
  else Except.ok dst

/-- Read a document into a `SubmarineStorage`. -/
def SubmarineStorage.decodeInto : SubmarineStorage → JSON → Except DecodeError SubmarineStorage :=
  decodeStruct "v1alpha1.SubmarineStorage" SubmarineStorage.setField

/-- Decode a `SubmarineStorage` document. -/
def SubmarineStorage.decode (j : JSON) : Except DecodeError SubmarineStorage :=
  SubmarineStorage.decodeInto SubmarineStorage.zero j

/-- Read one member into a `SubmarineSpec`. -/
def SubmarineSpec.setField (dst : SubmarineSpec) (k : String) (v : JSON) :
    Except DecodeError SubmarineSpec :=
  if matchesTag "version" k then (decodeString dst.Version v).map (fun x => { dst with Version := x })
  else if matchesTag "server" k then
    (decodePtr SubmarineServer.zero SubmarineServer.decodeInto dst.Server v).map
      (fun x => { dst with Server := x })
  else if matchesTag "database" k then
    (decodePtr SubmarineDatabase.zero SubmarineDatabase.decodeInto dst.Database v).map
      (fun x => { dst with Database := x })
  else if matchesTag "tensorboard" k then
    (decodePtr SubmarineTensorboard.zero SubmarineTensorboard.decodeInto dst.Tensorboard v).map
      (fun x => { dst with Tensorboard := x })
  else if matchesTag "mlflow" k then
    (decodePtr SubmarineMlflow.zero SubmarineMlflow.decodeInto dst.Mlflow v).map
      (fun x => { dst with Mlflow := x })
  else if matchesTag "minio" k then
    (decodePtr SubmarineMinio.zero SubmarineMinio.decodeInto dst.Minio v).map
      (fun x => { dst with Minio := x })
  else if matchesTag "storage" k then
    (decodePtr SubmarineStorage.zero SubmarineStorage.decodeInto dst.Storage v).map
      (fun x => { dst with Storage := x })
  else Except.ok dst

/-- Read a document into a `SubmarineSpec`. -/
def SubmarineSpec.decodeInto : SubmarineSpec → JSON → Except DecodeError SubmarineSpec :=
  decodeStruct "v1alpha1.SubmarineSpec" SubmarineSpec.setField

/-- Decode a `SubmarineSpec` document. -/
def SubmarineSpec.decode (j : JSON) : Except DecodeError SubmarineSpec :=
  SubmarineSpec.decodeInto SubmarineSpec.zero j

/-- Read one member into a `SubmarineState`; the state is a named string type,
so every string is read as it is. -/
def SubmarineState.setField (dst : SubmarineState) (k : String) (v : JSON) :
    Except DecodeError SubmarineState :=
  if matchesTag "state" k then (decodeString dst.State v).map (fun x => { dst with State := x })
  else if matchesTag "errorMessage" k then
    (decodeString dst.ErrorMessage v).map (fun x => { dst with ErrorMessage := x })
  else Except.ok dst

/-- Read a document into a `SubmarineState`. -/
def SubmarineState.decodeInto : SubmarineState → JSON → Except DecodeError SubmarineState :=
  decodeStruct "v1alpha1.SubmarineState" SubmarineState.setField

/-- Decode a `SubmarineState` document. -/
def SubmarineState.decode (j : JSON) : Except DecodeError SubmarineState :=
  SubmarineState.decodeInto SubmarineState.zero j

/-- Read one member into a `SubmarineStatus`. -/
def SubmarineStatus.setField (dst : SubmarineStatus) (k : String) (v : JSON) :
    Except DecodeError SubmarineStatus :=
  if matchesTag "availableServerReplicas" k then
    (decodeInt32 dst.AvailableServerReplicas v).map
      (fun x => { dst with AvailableServerReplicas := x })
  else if matchesTag "availableDatabaseReplicas" k then
    (decodeInt32 dst.AvailableDatabaseReplicas v).map
      (fun x => { dst with AvailableDatabaseReplicas := x })
  else if matchesTag "submarineState" k then
    (SubmarineState.decodeInto dst.SubmarineState v).map
      (fun x => { dst with SubmarineState := x })
  else Except.ok dst

/-- Read a document into a `SubmarineStatus`. -/
def SubmarineStatus.decodeInto : SubmarineStatus → JSON → Except DecodeError SubmarineStatus :=
  decodeStruct "v1alpha1.SubmarineStatus" SubmarineStatus.setField

/-- Decode a `SubmarineStatus` document. -/
def SubmarineStatus.decode (j : JSON) : Except DecodeError SubmarineStatus :=
  SubmarineStatus.decodeInto SubmarineStatus.zero j

/-- Read one member into a `Submarine`: the inline type members, `metadata`,
`spec` and `status`. -/
def Submarine.setField {M : Type} (mc : MetaCodec M) (dst : Submarine M) (k : String)
    (v : JSON) : Except DecodeError (Submarine M) :=
  if matchesTag "kind" k then
    (decodeString dst.TypeMeta.Kind v).map
      (fun x => { dst with TypeMeta := { dst.TypeMeta with Kind := x } })
  else if matchesTag "apiVersion" k then
    (decodeString dst.TypeMeta.APIVersion v).map
      (fun x => { dst with TypeMeta := { dst.TypeMeta with APIVersion := x } })
  else if matchesTag "metadata" k then
    (mc.decodeInto dst.ObjectMeta v).map (fun x => { dst with ObjectMeta := x })
  else if matchesTag "spec" k then
    (SubmarineSpec.decodeInto dst.Spec v).map (fun x => { dst with Spec := x })
  else if matchesTag "status" k then
    (SubmarineStatus.decodeInto dst.Status v).map (fun x => { dst with Status := x })
  else Except.ok dst

/-- Zero value of `Submarine`. -/
def Submarine.zero {M : Type} (mc : MetaCodec M) : Submarine M :=
  ⟨TypeMeta.zero, mc.zero, SubmarineSpec.zero, SubmarineStatus.zero⟩

/-- Read a document into a `Submarine`. -/
def Submarine.decodeInto {M : Type} (mc : MetaCodec M) :
    Submarine M → JSON → Except DecodeError (Submarine M) :=
  decodeStruct "v1alpha1.Submarine" (Submarine.setField mc)

/-- Decode a `Submarine` document. -/
def Submarine.decode {M : Type} (mc : MetaCodec M) (j : JSON) : Except DecodeError (Submarine M) :=
  Submarine.decodeInto mc (Submarine.zero mc) j

/-! ## An instance of the metadata codec

`metav1.ObjectMeta` is declared in an imported package.  The record below keeps
the members the spec names (name, namespace, labels, resource version) and the
creation timestamp, which the real document always carries; the other members
of the imported record are left out. -/

/-- Modelled from the spec: the imported `metav1.Time`, an instant given by the
RFC 3339 text of its second in UTC and the nanoseconds within that second. -/
structure Time where
  Second : String
  Nanosecond : Nat
deriving DecidableEq

/-- The zero time. -/
def Time.zero : Time := ⟨"0001-01-01T00:00:00Z", 0⟩

/-- Document of a `Time`: `null` for the zero time, else the RFC 3339 text of
its second. -/
def Time.encode (t : Time) : JSON :=
  if t = Time.zero then JSON.null else JSON.str t.Second

/-- Read a document into a `Time`: `null` is the zero time and a timestamp text
is that second (the grammar of the text is not checked here). -/
def Time.decodeInto (_ : Time) : JSON → Except DecodeError Time
  | JSON.null => Except.ok Time.zero
  | JSON.str s => Except.ok ⟨s, 0⟩
  | _ => typeError "string"

/-- Go's `m[k] = v` on a map kept as its entries in key order. -/
def mapSet (k v : GoString) : List (GoString × GoString) → List (GoString × GoString)
  | [] => [(k, v)]
  | e :: es =>
    if e.1 = k then (k, v) :: es
    else if k.bytes < e.1.bytes then (k, v) :: e :: es
    else e :: mapSet k v es

/-- Read the members of an object into a `map[string]string`. -/
def decodeMapMembers :
    List (GoString × GoString) → List (String × JSON) →
      Except DecodeError (List (GoString × GoString))
  | m, [] => Except.ok m
  | m, kv :: ms =>
    match decodeString GoString.empty kv.2 with
    | Except.ok v => decodeMapMembers (mapSet (GoString.ofText kv.1) v m) ms
    | Except.error e => Except.error e

/-- Modelled from the spec: the imported `metav1.ObjectMeta` is not part of the
source file; this record keeps its name, namespace, resource version, creation
timestamp and labels (a `map[string]string`: `none` is the `nil` map, otherwise
the entries in key order), with the tags of the imported record.  It
instantiates the codec parameter `MetaCodec`. -/
structure ObjectMeta where
  Name : GoString
  Namespace : GoString
  ResourceVersion : GoString
  CreationTimestamp : Time
  Labels : Option (List (GoString × GoString))
deriving DecidableEq

/-- Zero value of `ObjectMeta`. -/
def ObjectMeta.zero : ObjectMeta :=
  ⟨GoString.empty, GoString.empty, GoString.empty, Time.zero, none⟩

/-- A map field whose tag carries `omitempty`: left out when the map is `nil` or
has no entry. -/
def fieldOmitEmptyMap (name : String) :
    Option (List (GoString × GoString)) → List (String × JSON)
  | none => []
  | some [] => []
  | some (e :: es) =>
    [(name, JSON.obj ((e :: es).map fun kv => (kv.1.toText, JSON.str kv.2.toText)))]

/-- Document of an `ObjectMeta`. -/
def ObjectMeta.encode (m : ObjectMeta) : JSON :=
  JSON.obj (fieldOmitEmptyString "name" m.Name
    ++ fieldOmitEmptyString "namespace" m.Namespace
    ++ fieldOmitEmptyString "resourceVersion" m.ResourceVersion
    ++ fieldOmitEmptyStruct "creationTimestamp" (Time.encode m.CreationTimestamp)
    ++ fieldOmitEmptyMap "labels" m.Labels)

/-- Read a document into a `map[string]string`: `null` makes it `nil`, an object
is read entry by entry into the map (a new one when it was `nil`). -/
def decodeMap (dst : Option (List (GoString × GoString))) :
    JSON → Except DecodeError (Option (List (GoString × GoString)))
  | JSON.null => Except.ok none
  | JSON.obj ms => (decodeMapMembers (dst.getD []) ms).map some
  | _ => typeError "map[string]string"

/-- Read one member into an `ObjectMeta`. -/
def ObjectMeta.setField (dst : ObjectMeta) (k : String) (v : JSON) :
    Except DecodeError ObjectMeta :=
  if matchesTag "name" k then (decodeString dst.Name v).map (fun x => { dst with Name := x })
  else if matchesTag "namespace" k then
    (decodeString dst.Namespace v).map (fun x => { dst with Namespace := x })
  else if matchesTag "resourceVersion" k then
    (decodeString dst.ResourceVersion v).map (fun x => { dst with ResourceVersion := x })
  else if matchesTag "creationTimestamp" k then
    (Time.decodeInto dst.CreationTimestamp v).map
      (fun x => { dst with CreationTimestamp := x })
  else if matchesTag "labels" k then
    (decodeMap dst.Labels v).map (fun x => { dst with Labels := x })
  else Except.ok dst

/-- The codec of `ObjectMeta`. -/
def objectMetaCodec : MetaCodec ObjectMeta where
  zero := ObjectMeta.zero
  encode := ObjectMeta.encode
  decodeInto := decodeStruct "v1.ObjectMeta" ObjectMeta.setField

/-- A `Submarine` in state `FAILED` with an error message, the spec's example. -/
def failedSubmarine : Submarine ObjectMeta where
  TypeMeta := ⟨"Submarine", "submarine.apache.org/v1alpha1"⟩
  ObjectMeta := ⟨"example-submarine", "default", "", Time.zero,
    some [("app", "submarine")]⟩
  Spec := ⟨"0.7.0", some ⟨"submarine-server:0.7.0", some ⟨1, by decide⟩⟩, none,
    some ⟨some true, "10Gi"⟩, none, some ⟨none, ""⟩, none⟩
  Status := ⟨int32.zero, int32.zero, ⟨FailedState, "image pull failed"⟩⟩

/-! ## Documents that do not fit, and documents that do -/

/-- A number, a boolean, an object or an array: a document that is neither a
string nor `null`. -/
def JSON.notString : JSON → Bool
  | JSON.str _ => false
  | JSON.null => false
  | _ => true

/-- A document other than `null` that is not an integer literal in the `int32`
range. -/
def JSON.notInt32 : JSON → Bool
  | JSON.null => false
  | JSON.int i => !(decide (-2147483648 ≤ i ∧ i ≤ 2147483647))
  | _ => true

/-- Some top-level member of the document satisfies `p`. -/
def anyMember (p : String → JSON → Bool) (j : JSON) : Bool :=
  j.members.any (fun kv => p kv.1 kv.2)

/-- A `SubmarineServer` document with a string field holding a non-string or
`replicas` holding a non-`int32`. -/
def SubmarineServer.malformed : JSON → Bool :=
  anyMember fun k v => (k == "image" && v.notString) || (k == "replicas" && v.notInt32)

/-- A `SubmarineDatabase` document with a string field holding a non-string or
`replicas` holding a non-`int32`. -/
def SubmarineDatabase.malformed : JSON → Bool :=
  anyMember fun k v => (k == "image" && v.notString) || (k == "replicas" && v.notInt32)
    || (k == "storageSize" && v.notString) || (k == "mysqlRootPasswordSecret" && v.notString)

/-- A `SubmarineTensorboard` document whose `storageSize` holds a non-string. -/
def SubmarineTensorboard.malformed : JSON → Bool :=
  anyMember fun k v => k == "storageSize" && v.notString

/-- A `SubmarineMlflow` document whose `storageSize` holds a non-string. -/
def SubmarineMlflow.malformed : JSON → Bool :=
  anyMember fun k v => k == "storageSize" && v.notString

/-- A `SubmarineMinio` document whose `storageSize` holds a non-string. -/
def SubmarineMinio.malformed : JSON → Bool :=
  anyMember fun k v => k == "storageSize" && v.notString

/-- A `SubmarineStorage` document with a string field holding a non-string. -/
def SubmarineStorage.malformed : JSON → Bool :=
  anyMember fun k v => (k == "storageType" && v.notString) || (k == "hostPath" && v.notString)
    || (k == "nfsPath" && v.notString) || (k == "nfsIP" && v.notString)

/-- A `SubmarineSpec` document whose `version` holds a non-string or one of
whose sub-spec members is malformed. -/
def SubmarineSpec.malformed : JSON → Bool :=
  anyMember fun k v => (k == "version" && v.notString)
    || (k == "server" && SubmarineServer.malformed v)
    || (k == "database" && SubmarineDatabase.malformed v)
    || (k == "tensorboard" && SubmarineTensorboard.malformed v)
    || (k == "mlflow" && SubmarineMlflow.malformed v)
    || (k == "minio" && SubmarineMinio.malformed v)
    || (k == "storage" && SubmarineStorage.malformed v)

/-- A `SubmarineState` document with a string field holding a non-string. -/
def SubmarineState.malformed : JSON → Bool :=
  anyMember fun k v => (k == "state" && v.notString) || (k == "errorMessage" && v.notString)

/-- A `SubmarineStatus` document with a replica counter holding a non-`int32`
or a malformed `submarineState`. -/
def SubmarineStatus.malformed : JSON → Bool :=
  anyMember fun k v => (k == "availableServerReplicas" && v.notInt32)
    || (k == "availableDatabaseReplicas" && v.notInt32)
    || (k == "submarineState" && SubmarineState.malformed v)

/-- A `Submarine` document whose `kind` or `apiVersion` holds a non-string or
whose `spec` or `status` is malformed. -/
def Submarine.malformed : JSON → Bool :=
  anyMember fun k v => (k == "kind" && v.notString) || (k == "apiVersion" && v.notString)
    || (k == "spec" && SubmarineSpec.malformed v)
    || (k == "status" && SubmarineStatus.malformed v)

/-- The document is a JSON string. -/
def JSON.isString : JSON → Bool
  | JSON.str _ => true
  | _ => false

/-- The document is an integer literal in the `int32` range. -/
def JSON.isInt32 : JSON → Bool
  | JSON.int i => decide (-2147483648 ≤ i ∧ i ≤ 2147483647)
  | _ => false

/-- The document is a JSON boolean. -/
def JSON.isBool : JSON → Bool
  | JSON.bool _ => true
  | _ => false

/-- The declared type of a nullable (pointer) field: `null` or the pointee type. -/
def nullOr (p : JSON → Bool) : JSON → Bool
  | JSON.null => true
  | j => p j

/-- The document is an object and each of its members satisfies `p`. -/
def allMembers (p : String → JSON → Bool) : JSON → Bool
  | JSON.obj ms => ms.all (fun kv => p kv.1 kv.2)
  | _ => false

/-- An object whose members matching a `SubmarineServer` tag hold the declared
JSON type. -/
def SubmarineServer.conforms : JSON → Bool :=
  allMembers fun k v =>
    if matchesTag "image" k then v.isString
    else if matchesTag "replicas" k then nullOr JSON.isInt32 v
    else true

/-- An object whose members matching a `SubmarineDatabase` tag hold the declared
JSON type. -/
def SubmarineDatabase.conforms : JSON → Bool :=
  allMembers fun k v =>
    if matchesTag "image" k then v.isString
    else if matchesTag "replicas" k then nullOr JSON.isInt32 v
    else if matchesTag "storageSize" k then v.isString
    else if matchesTag "mysqlRootPasswordSecret" k then v.isString
    else true

/-- An object whose members matching a `SubmarineTensorboard` tag hold the
declared JSON type. -/
def SubmarineTensorboard.conforms : JSON → Bool :=
  allMembers fun k v =>
    if matchesTag "enabled" k then nullOr JSON.isBool v
    else if matchesTag "storageSize" k then v.isString
    else true

/-- An object whose members matching a `SubmarineMlflow` tag hold the declared
JSON type. -/
def SubmarineMlflow.conforms : JSON → Bool :=
  allMembers fun k v =>
    if matchesTag "enabled" k then nullOr JSON.isBool v
    else if matchesTag "storageSize" k then v.isString
    else true

/-- An object whose members matching a `SubmarineMinio` tag hold the declared
JSON type. -/
def SubmarineMinio.conforms : JSON → Bool :=
  allMembers fun k v =>
    if matchesTag "enabled" k then nullOr JSON.isBool v
    else if matchesTag "storageSize" k then v.isString
    else true

/-- An object whose members matching a `SubmarineStorage` tag hold the declared
JSON type. -/
def SubmarineStorage.conforms : JSON → Bool :=
  allMembers fun k v =>
    if matchesTag "storageType" k then v.isString
    else if matchesTag "hostPath" k then v.isString
    else if matchesTag "nfsPath" k then v.isString
    else if matchesTag "nfsIP" k then v.isString
    else true

/-- An object whose members matching a `SubmarineSpec` tag hold the declared
JSON type. -/
def SubmarineSpec.conforms : JSON → Bool :=
  allMembers fun k v =>
    if matchesTag "version" k then v.isString
    else if matchesTag "server" k then nullOr SubmarineServer.conforms v
    else if matchesTag "database" k then nullOr SubmarineDatabase.conforms v
    else if matchesTag "tensorboard" k then nullOr SubmarineTensorboard.conforms v
    else if matchesTag "mlflow" k then nullOr SubmarineMlflow.conforms v
    else if matchesTag "minio" k then nullOr SubmarineMinio.conforms v
    else if matchesTag "storage" k then nullOr SubmarineStorage.conforms v
    else true

/-- An object whose members matching a `SubmarineState` tag hold the declared
JSON type. -/
def SubmarineState.conforms : JSON → Bool :=
  allMembers fun k v =>
    if matchesTag "state" k then v.isString
    else if matchesTag "errorMessage" k then v.isString
    else true

/-- An object whose members matching a `SubmarineStatus` tag hold the declared
JSON type. -/
def SubmarineStatus.conforms : JSON → Bool :=
  allMembers fun k v =>
    if matchesTag "availableServerReplicas" k then v.isInt32
    else if matchesTag "availableDatabaseReplicas" k then v.isInt32
    else if matchesTag "submarineState" k then SubmarineState.conforms v
    else true

/-! ## Valid UTF-8 -/

/-- A property of the pointee of a pointer; it holds of `nil`. -/
def optValid {α : Type} (p : α → Prop) : Option α → Prop
  | none => True
  | some a => p a

/-- Every string of the `SubmarineServer` is valid UTF-8. -/
def SubmarineServer.StringsValid (s : SubmarineServer) : Prop := s.Image.Valid

/-- Every string of the `SubmarineDatabase` is valid UTF-8. -/
def SubmarineDatabase.StringsValid (s : SubmarineDatabase) : Prop :=
  s.Image.Valid ∧ s.StorageSize.Valid ∧ s.MysqlRootPasswordSecret.Valid

/-- Every string of the `SubmarineTensorboard` is valid UTF-8. -/
def SubmarineTensorboard.StringsValid (s : SubmarineTensorboard) : Prop := s.StorageSize.Valid

/-- Every string of the `SubmarineMlflow` is valid UTF-8. -/
def SubmarineMlflow.StringsValid (s : SubmarineMlflow) : Prop := s.StorageSize.Valid

/-- Every string of the `SubmarineMinio` is valid UTF-8. -/
def SubmarineMinio.StringsValid (s : SubmarineMinio) : Prop := s.StorageSize.Valid

/-- Every string of the `SubmarineStorage` is valid UTF-8. -/
def SubmarineStorage.StringsValid (s : SubmarineStorage) : Prop :=
  s.StorageType.Valid ∧ s.HostPath.Valid ∧ s.NfsPath.Valid ∧ s.NfsIP.Valid

/-- Every string of the `SubmarineSpec` and of its sub-specs is valid UTF-8. -/
def SubmarineSpec.StringsValid (s : SubmarineSpec) : Prop :=
  s.Version.Valid
  ∧ optValid SubmarineServer.StringsValid s.Server
  ∧ optValid SubmarineDatabase.StringsValid s.Database
  ∧ optValid SubmarineTensorboard.StringsValid s.Tensorboard
  ∧ optValid SubmarineMlflow.StringsValid s.Mlflow
  ∧ optValid SubmarineMinio.StringsValid s.Minio
  ∧ optValid SubmarineStorage.StringsValid s.Storage

/-- The state string and the error message are valid UTF-8. -/
def SubmarineState.StringsValid (s : SubmarineState) : Prop :=
  s.State.Valid ∧ s.ErrorMessage.Valid

/-- Every string of the `SubmarineStatus` is valid UTF-8. -/
def SubmarineStatus.StringsValid (s : SubmarineStatus) : Prop :=
  s.SubmarineState.StringsValid

/-- Every string of the `Submarine`, its imported object metadata apart, is
valid UTF-8. -/
def Submarine.StringsValid {M : Type} (v : Submarine M) : Prop :=
  v.TypeMeta.Kind.Valid ∧ v.TypeMeta.APIVersion.Valid ∧ v.Spec.StringsValid
  ∧ v.Status.StringsValid

/-- Some top-level key of the document selects the field tagged `tag`. -/
def JSON.hasKeyMatching (j : JSON) (tag : String) : Bool :=
  j.members.any (fun kv => matchesTag tag kv.1)

/-- The Go string `"bad\xff"`: three letters and a byte that is not UTF-8. -/
def badString : GoString := ⟨[98, 97, 100, 255]⟩

/-- A `Submarine` whose label map is empty but not `nil`. -/
def emptyLabelsSubmarine : Submarine ObjectMeta where
  TypeMeta := ⟨"Submarine", "submarine.apache.org/v1alpha1"⟩
  ObjectMeta := ⟨"example-submarine", "default", "", Time.zero, some []⟩
  Spec := SubmarineSpec.zero
  Status := SubmarineStatus.zero

/-! ## Memory model for `Clone`

The records above identify a pointer with what it points to, which is all the
codec needs.  `Clone` is about sharing, so here the records are laid out in
memory: a pointer field holds the address of a heap cell (or `nil`), and a
slice holds the address of its backing array. -/

namespace Mem

/-- The address of a heap cell. -/
abbrev Addr := Nat

/-- `SubmarineServer` in memory: `Replicas` is a pointer to an `int32` cell. -/
structure SubmarineServer where
  Image : GoString
  Replicas : Option Addr

/-- `SubmarineDatabase` in memory: `Replicas` is a pointer to an `int32` cell. -/
structure SubmarineDatabase where
  Image : GoString
  Replicas : Option Addr
  StorageSize : GoString
  MysqlRootPasswordSecret : GoString

/-- `SubmarineTensorboard` in memory: `Enabled` is a pointer to a `bool` cell. -/
structure SubmarineTensorboard where
  Enabled : Option Addr
  StorageSize : GoString

/-- `SubmarineMlflow` in memory: `Enabled` is a pointer to a `bool` cell. -/
structure SubmarineMlflow where
  Enabled : Option Addr
  StorageSize : GoString

/-- `SubmarineMinio` in memory: `Enabled` is a pointer to a `bool` cell. -/
structure SubmarineMinio where
  Enabled : Option Addr
  StorageSize : GoString

/-- `SubmarineSpec` in memory: six pointers to sub-spec cells. -/
structure SubmarineSpec where
  Version : GoString
  Server : Option Addr
  Database : Option Addr
  Tensorboard : Option Addr
  Mlflow : Option Addr
  Minio : Option Addr
  Storage : Option Addr

/-- `Submarine` in memory; the status holds no pointer. -/
structure Submarine (M : Type) where
  TypeMeta : V1alpha1.TypeMeta
  ObjectMeta : M
  Spec : SubmarineSpec
  Status : V1alpha1.SubmarineStatus

/-- `SubmarineList` in memory: `Items` is the address of the backing array. -/
structure SubmarineList (M L : Type) where
  TypeMeta : V1alpha1.TypeMeta
  ListMeta : L
  Items : Option Addr

/-- What a heap cell holds. -/
inductive Cell (M : Type) where
  | int32 (n : V1alpha1.int32)
  | bool (b : Bool)
  | server (s : SubmarineServer)
  | database (s : SubmarineDatabase)
  | tensorboard (s : SubmarineTensorboard)
  | mlflow (s : SubmarineMlflow)
  | minio (s : SubmarineMinio)
  | storage (s : V1alpha1.SubmarineStorage)
  | items (xs : List (Submarine M))

/-- The heap: cell `a` is the `a`-th element; allocation appends a cell. -/
abbrev Heap (M : Type) := List (Cell M)

/-- The heap `H'` is `H` with further cells allocated. -/
def Extends {M : Type} (H H' : Heap M) : Prop := ∃ e, H' = H ++ e

/-- The `int32` in a cell. -/
def Cell.asInt32 {M : Type} : Cell M → Option V1alpha1.int32
  | Cell.int32 n => some n
  | _ => none

/-- The `bool` in a cell. -/
def Cell.asBool {M : Type} : Cell M → Option Bool
  | Cell.bool b => some b
  | _ => none

/-- The `SubmarineServer` in a cell. -/
def Cell.asServer {M : Type} : Cell M → Option SubmarineServer
  | Cell.server s => some s
  | _ => none

/-- The `SubmarineDatabase` in a cell. -/
def Cell.asDatabase {M : Type} : Cell M → Option SubmarineDatabase
  | Cell.database s => some s
  | _ => none

/-- The `SubmarineTensorboard` in a cell. -/
def Cell.asTensorboard {M : Type} : Cell M → Option SubmarineTensorboard
  | Cell.tensorboard s => some s
  | _ => none

/-- The `SubmarineMlflow` in a cell. -/
def Cell.asMlflow {M : Type} : Cell M → Option SubmarineMlflow
  | Cell.mlflow s => some s
  | _ => none

/-- The `SubmarineMinio` in a cell. -/
def Cell.asMinio {M : Type} : Cell M → Option SubmarineMinio
  | Cell.minio s => some s
  | _ => none

/-- The `SubmarineStorage` in a cell. -/
def Cell.asStorage {M : Type} : Cell M → Option V1alpha1.SubmarineStorage
  | Cell.storage s => some s
  | _ => none

/-- The backing array in a cell. -/
def Cell.asItems {M : Type} : Cell M → Option (List (Submarine M))
  | Cell.items xs => some xs
  | _ => none

/-! ### Reading a value out of memory, and the cells it is made of -/

/-- A value without pointers is read as it is. -/
def loadScalar {M T : Type} (_ : Heap M) (t : T) : Option T := some t

/-- A value without pointers reaches no cell. -/
def reachScalar {M T : Type} (_ : Heap M) (_ : T) : List Addr := []

/-- Follow a pointer: `nil` is `none`; otherwise the cell must exist and hold
the pointee, which is read in turn. -/
def loadPtr {M T V : Type} (get : Cell M → Option T) (loadT : Heap M → T → Option V)
    (H : Heap M) : Option Addr → Option (Option V)
  | none => some none
  | some a => (H[a]?).bind fun c => (get c).bind fun t => (loadT H t).map some

/-- The cells reached through a pointer: its own cell and those the pointee
reaches. -/
def reachPtr {M T : Type} (get : Cell M → Option T) (reachT : Heap M → T → List Addr)
    (H : Heap M) : Option Addr → List Addr
  | none => []
  | some a =>
    a :: (match (H[a]?).bind get with
      | some t => reachT H t
      | none => [])

/-- Read a `SubmarineServer`. -/
def SubmarineServer.load {M : Type} (H : Heap M) (s : SubmarineServer) :
    Option V1alpha1.SubmarineServer :=
  (loadPtr Cell.asInt32 loadScalar H s.Replicas).map fun r => ⟨s.Image, r⟩

/-- Cells of a `SubmarineServer`. -/
def SubmarineServer.reach {M : Type} (H : Heap M) (s : SubmarineServer) : List Addr :=
  reachPtr Cell.asInt32 reachScalar H s.Replicas

/-- Read a `SubmarineDatabase`. -/
def SubmarineDatabase.load {M : Type} (H : Heap M) (s : SubmarineDatabase) :
    Option V1alpha1.SubmarineDatabase :=
  (loadPtr Cell.asInt32 loadScalar H s.Replicas).map fun r =>
    ⟨s.Image, r, s.StorageSize, s.MysqlRootPasswordSecret⟩

/-- Cells of a `SubmarineDatabase`. -/
def SubmarineDatabase.reach {M : Type} (H : Heap M) (s : SubmarineDatabase) : List Addr :=
  reachPtr Cell.asInt32 reachScalar H s.Replicas

/-- Read a `SubmarineTensorboard`. -/
def SubmarineTensorboard.load {M : Type} (H : Heap M) (s : SubmarineTensorboard) :
    Option V1alpha1.SubmarineTensorboard :=
  (loadPtr Cell.asBool loadScalar H s.Enabled).map fun r => ⟨r, s.StorageSize⟩

/-- Cells of a `SubmarineTensorboard`. -/
def SubmarineTensorboard.reach {M : Type} (H : Heap M) (s : SubmarineTensorboard) :
    List Addr :=
  reachPtr Cell.asBool reachScalar H s.Enabled

/-- Read a `SubmarineMlflow`. -/
def SubmarineMlflow.load {M : Type} (H : Heap M) (s : SubmarineMlflow) :
    Option V1alpha1.SubmarineMlflow :=
  (loadPtr Cell.asBool loadScalar H s.Enabled).map fun r => ⟨r, s.StorageSize⟩

/-- Cells of a `SubmarineMlflow`. -/
def SubmarineMlflow.reach {M : Type} (H : Heap M) (s : SubmarineMlflow) : List Addr :=
  reachPtr Cell.asBool reachScalar H s.Enabled

/-- Read a `SubmarineMinio`. -/
def SubmarineMinio.load {M : Type} (H : Heap M) (s : SubmarineMinio) :
    Option V1alpha1.SubmarineMinio :=
  (loadPtr Cell.asBool loadScalar H s.Enabled).map fun r => ⟨r, s.StorageSize⟩

/-- Cells of a `SubmarineMinio`. -/
def SubmarineMinio.reach {M : Type} (H : Heap M) (s : SubmarineMinio) : List Addr :=
  reachPtr Cell.asBool reachScalar H s.Enabled

/-- Read a `SubmarineSpec`. -/
def SubmarineSpec.load {M : Type} (H : Heap M) (s : SubmarineSpec) :
    Option V1alpha1.SubmarineSpec :=
  (loadPtr Cell.asServer SubmarineServer.load H s.Server).bind fun sv =>
  (loadPtr Cell.asDatabase SubmarineDatabase.load H s.Database).bind fun db =>
  (loadPtr Cell.asTensorboard SubmarineTensorboard.load H s.Tensorboard).bind fun tb =>
  (loadPtr Cell.asMlflow SubmarineMlflow.load H s.Mlflow).bind fun ml =>
  (loadPtr Cell.asMinio SubmarineMinio.load H s.Minio).bind fun mi =>
  (loadPtr Cell.asStorage loadScalar H s.Storage).map fun st =>
    ⟨s.Version, sv, db, tb, ml, mi, st⟩

/-- Cells of a `SubmarineSpec`. -/
def SubmarineSpec.reach {M : Type} (H : Heap M) (s : SubmarineSpec) : List Addr :=
  reachPtr Cell.asServer SubmarineServer.reach H s.Server
    ++ reachPtr Cell.asDatabase SubmarineDatabase.reach H s.Database
    ++ reachPtr Cell.asTensorboard SubmarineTensorboard.reach H s.Tensorboard
    ++ reachPtr Cell.asMlflow SubmarineMlflow.reach H s.Mlflow
    ++ reachPtr Cell.asMinio SubmarineMinio.reach H s.Minio
    ++ reachPtr Cell.asStorage reachScalar H s.Storage

/-- Read a `Submarine`. -/
def Submarine.load {M : Type} (H : Heap M) (v : Submarine M) : Option (V1alpha1.Submarine M) :=
  (SubmarineSpec.load H v.Spec).map fun sp => ⟨v.TypeMeta, v.ObjectMeta, sp, v.Status⟩

/-- Cells of a `Submarine`. -/
def Submarine.reach {M : Type} (H : Heap M) (v : Submarine M) : List Addr :=
  SubmarineSpec.reach H v.Spec

/-- Read the elements of a backing array. -/
def loadItems {M : Type} (H : Heap M) : List (Submarine M) → Option (List (V1alpha1.Submarine M))
  | [] => some []
  | v :: vs => (Submarine.load H v).bind fun x => (loadItems H vs).map fun xs => x :: xs

/-- Cells of the elements of a backing array. -/
def reachItems {M : Type} (H : Heap M) : List (Submarine M) → List Addr
  | [] => []
  | v :: vs => Submarine.reach H v ++ reachItems H vs

/-- Read a `SubmarineList`. -/
def SubmarineList.load {M L : Type} (H : Heap M) (l : SubmarineList M L) :
    Option (V1alpha1.SubmarineList M L) :=
  (loadPtr Cell.asItems loadItems H l.Items).map fun its => ⟨l.TypeMeta, l.ListMeta, its⟩

/-- Cells of a `SubmarineList`: the backing array and what its elements reach. -/
def SubmarineList.reach {M L : Type} (H : Heap M) (l : SubmarineList M L) : List Addr :=
  reachPtr Cell.asItems reachItems H l.Items

/-! ### Clone -/

/-- Modelled from the spec: copying a value without pointers. -/
def cloneScalar {M T : Type} (H : Heap M) (t : T) : Option (Heap M × T) := some (H, t)

/-- Modelled from the spec: the deep-copy functions of the resource are
generated code that is not part of the source file.  "Clone(value) → independent
deep copy with no shared ownership between original and copy": a `nil` pointer
stays `nil`; for any other pointer the pointee is cloned and stored in a newly
allocated cell, whose address is the pointer of the copy.  The result is the new
heap and the copy, or `none` when the pointer does not point to a cell of its
type. -/
def clonePtr {M T : Type} (get : Cell M → Option T) (mk : T → Cell M)
    (cloneT : Heap M → T → Option (Heap M × T)) (H : Heap M) :
    Option Addr → Option (Heap M × Option Addr)
  | none => some (H, none)
  | some a => ((H[a]?).bind get).bind fun t =>
      (cloneT H t).map fun r => (r.1 ++ [mk r.2], some r.1.length)

/-- Modelled from the spec: clone of a `SubmarineServer` (its generated deep
copy is not part of the source file): the fields are copied and `Replicas` is
cloned. -/
def SubmarineServer.clone {M : Type} (H : Heap M) (s : SubmarineServer) :
    Option (Heap M × SubmarineServer) :=
  (clonePtr Cell.asInt32 Cell.int32 cloneScalar H s.Replicas).map fun r =>
    (r.1, { s with Replicas := r.2 })

/-- Modelled from the spec: clone of a `SubmarineDatabase` (its generated deep
copy is not part of the source file). -/
def SubmarineDatabase.clone {M : Type} (H : Heap M) (s : SubmarineDatabase) :
    Option (Heap M × SubmarineDatabase) :=
  (clonePtr Cell.asInt32 Cell.int32 cloneScalar H s.Replicas).map fun r =>
    (r.1, { s with Replicas := r.2 })

/-- Modelled from the spec: clone of a `SubmarineTensorboard` (its generated
deep copy is not part of the source file). -/
def SubmarineTensorboard.clone {M : Type} (H : Heap M) (s : SubmarineTensorboard) :
    Option (Heap M × SubmarineTensorboard) :=
  (clonePtr Cell.asBool Cell.bool cloneScalar H s.Enabled).map fun r =>
    (r.1, { s with Enabled := r.2 })

/-- Modelled from the spec: clone of a `SubmarineMlflow` (its generated deep
copy is not part of the source file). -/
def SubmarineMlflow.clone {M : Type} (H : Heap M) (s : SubmarineMlflow) :
    Option (Heap M × SubmarineMlflow) :=
  (clonePtr Cell.asBool Cell.bool cloneScalar H s.Enabled).map fun r =>
    (r.1, { s with Enabled := r.2 })

/-- Modelled from the spec: clone of a `SubmarineMinio` (its generated deep copy
is not part of the source file). -/
def SubmarineMinio.clone {M : Type} (H : Heap M) (s : SubmarineMinio) :
    Option (Heap M × SubmarineMinio) :=
  (clonePtr Cell.asBool Cell.bool cloneScalar H s.Enabled).map fun r =>
    (r.1, { s with Enabled := r.2 })

/-- Modelled from the spec: clone of a `SubmarineSpec` (its generated deep copy
is not part of the source file): the version is copied and each of the six
sub-spec pointers is cloned in turn. -/
def SubmarineSpec.clone {M : Type} (H : Heap M) (s : SubmarineSpec) :
    Option (Heap M × SubmarineSpec) :=
  (clonePtr Cell.asServer Cell.server SubmarineServer.clone H s.Server).bind fun r1 =>
  (clonePtr Cell.asDatabase Cell.database SubmarineDatabase.clone r1.1 s.Database).bind
    fun r2 =>
  (clonePtr Cell.asTensorboard Cell.tensorboard SubmarineTensorboard.clone r2.1
    s.Tensorboard).bind fun r3 =>
  (clonePtr Cell.asMlflow Cell.mlflow SubmarineMlflow.clone r3.1 s.Mlflow).bind fun r4 =>
  (clonePtr Cell.asMinio Cell.minio SubmarineMinio.clone r4.1 s.Minio).bind fun r5 =>
  (clonePtr Cell.asStorage Cell.storage cloneScalar r5.1 s.Storage).map fun r6 =>
    (r6.1, ⟨s.Version, r1.2, r2.2, r3.2, r4.2, r5.2, r6.2⟩)

/-- Modelled from the spec: clone of a `Submarine` (its generated deep copy is
not part of the source file): type and object metadata and the status are
copied as values, the spec is cloned. -/
def Submarine.clone {M : Type} (H : Heap M) (v : Submarine M) :
    Option (Heap M × Submarine M) :=
  (SubmarineSpec.clone H v.Spec).map fun r => (r.1, { v with Spec := r.2 })

/-- Modelled from the spec: clone of the elements of a backing array, one after
the other. -/
def cloneItems {M : Type} (H : Heap M) : List (Submarine M) → Option (Heap M × List (Submarine M))
  | [] => some (H, [])
  | v :: vs => (Submarine.clone H v).bind fun r =>
      (cloneItems r.1 vs).map fun r2 => (r2.1, r.2 :: r2.2)

/-- Modelled from the spec: clone of a `SubmarineList` (its generated deep copy
is not part of the source file): a `nil` slice stays `nil`, otherwise a new
backing array receives the clones of the elements. -/
def SubmarineList.clone {M L : Type} (H : Heap M) (l : SubmarineList M L) :
    Option (Heap M × SubmarineList M L) :=
  (clonePtr Cell.asItems Cell.items cloneItems H l.Items).map fun r =>
    (r.1, { l with Items := r.2 })

/-- Reading is stable: a value that can be read reaches only allocated cells,
and further allocation changes neither what is read nor what is reached. -/
def Stable {M T V : Type} (load : Heap M → T → Option V) (reach : Heap M → T → List Addr) :
    Prop :=
  ∀ H t x, load H t = some x →
    (∀ a ∈ reach H t, a < H.length)
    ∧ ∀ H', Extends H H' → load H' t = some x ∧ reach H' t = reach H t

/-- Cloning a readable value succeeds, only allocates, and yields a copy that
reads as the same value and reaches newly allocated cells only. -/
def FreshCopy {M T V : Type} (load : Heap M → T → Option V)
    (reach : Heap M → T → List Addr) (clone : Heap M → T → Option (Heap M × T)) : Prop :=
  ∀ H t x, load H t = some x →
    ∃ H' t', clone H t = some (H', t') ∧ Extends H H' ∧ load H' t' = some x
      ∧ ∀ a ∈ reach H' t', H.length ≤ a ∧ a < H'.length

end Mem

/-! ## An example memory -/

/-- Modelled from the spec: the imported `metav1.ListMeta` is not part of the
source file; this record is the list-level metadata the spec names
(continuation token, resource version). -/
structure ListMeta where
  ResourceVersion : GoString
  Continue : GoString
deriving DecidableEq

/-- A heap holding the sub-specs of `failedSubmarine` and a backing array with
that one element. -/
def exampleHeap : Mem.Heap ObjectMeta :=
  [Mem.Cell.int32 ⟨1, by decide⟩,
   Mem.Cell.server ⟨"submarine-server:0.7.0", some 0⟩,
   Mem.Cell.bool true,
   Mem.Cell.tensorboard ⟨some 2, "10Gi"⟩,
   Mem.Cell.minio ⟨none, ""⟩,
   Mem.Cell.items [⟨failedSubmarine.TypeMeta, failedSubmarine.ObjectMeta,
     ⟨"0.7.0", some 1, none, some 3, none, some 4, none⟩, failedSubmarine.Status⟩]]

/-- The value `failedSubmarine` as it lies in `exampleHeap`. -/
def exampleSubmarine : Mem.Submarine ObjectMeta :=
  ⟨failedSubmarine.TypeMeta, failedSubmarine.ObjectMeta,
    ⟨"0.7.0", some 1, none, some 3, none, some 4, none⟩, failedSubmarine.Status⟩

/-- A list whose backing array is cell 5 of `exampleHeap`. -/
def exampleList : Mem.SubmarineList ObjectMeta ListMeta :=
  ⟨⟨"SubmarineList", "submarine.apache.org/v1alpha1"⟩, ⟨"42", ""⟩, some 5⟩

/-! ## Theorems -/

/-! ### Key matching on the tag names -/

/-- Each tag name matches itself and no tag name written before it in the same
record. -/
theorem tag_table :
    matchesTag "image" "image" = true
    ∧ matchesTag "image" "replicas" = false
    ∧ matchesTag "replicas" "replicas" = true
    ∧ matchesTag "image" "storageSize" = false
    ∧ matchesTag "replicas" "storageSize" = false
    ∧ matchesTag "storageSize" "storageSize" = true
    ∧ matchesTag "image" "mysqlRootPasswordSecret" = false
    ∧ matchesTag "replicas" "mysqlRootPasswordSecret" = false
    ∧ matchesTag "storageSize" "mysqlRootPasswordSecret" = false
    ∧ matchesTag "mysqlRootPasswordSecret" "mysqlRootPasswordSecret" = true
    ∧ matchesTag "enabled" "enabled" = true
    ∧ matchesTag "enabled" "storageSize" = false
    ∧ matchesTag "storageType" "storageType" = true
    ∧ matchesTag "storageType" "hostPath" = false
    ∧ matchesTag "hostPath" "hostPath" = true
    ∧ matchesTag "storageType" "nfsPath" = false
    ∧ matchesTag "hostPath" "nfsPath" = false
    ∧ matchesTag "nfsPath" "nfsPath" = true
    ∧ matchesTag "storageType" "nfsIP" = false
    ∧ matchesTag "hostPath" "nfsIP" = false
    ∧ matchesTag "nfsPath" "nfsIP" = false
    ∧ matchesTag "nfsIP" "nfsIP" = true
    ∧ matchesTag "version" "version" = true
    ∧ matchesTag "version" "server" = false
    ∧ matchesTag "server" "server" = true
    ∧ matchesTag "version" "database" = false
    ∧ matchesTag "server" "database" = false
    ∧ matchesTag "database" "database" = true
    ∧ matchesTag "version" "tensorboard" = false
    ∧ matchesTag "server" "tensorboard" = false
    ∧ matchesTag "database" "tensorboard" = false
    ∧ matchesTag "tensorboard" "tensorboard" = true
    ∧ matchesTag "version" "mlflow" = false
    ∧ matchesTag "server" "mlflow" = false
    ∧ matchesTag "database" "mlflow" = false
    ∧ matchesTag "tensorboard" "mlflow" = false
    ∧ matchesTag "mlflow" "mlflow" = true
    ∧ matchesTag "version" "minio" = false
    ∧ matchesTag "server" "minio" = false
    ∧ matchesTag "database" "minio" = false
    ∧ matchesTag "tensorboard" "minio" = false
    ∧ matchesTag "mlflow" "minio" = false
    ∧ matchesTag "minio" "minio" = true
    ∧ matchesTag "version" "storage" = false
    ∧ matchesTag "server" "storage" = false
    ∧ matchesTag "database" "storage" = false
    ∧ matchesTag "tensorboard" "storage" = false
    ∧ matchesTag "mlflow" "storage" = false
    ∧ matchesTag "minio" "storage" = false
    ∧ matchesTag "storage" "storage" = true
    ∧ matchesTag "state" "state" = true
    ∧ matchesTag "state" "errorMessage" = false
    ∧ matchesTag "errorMessage" "errorMessage" = true
    ∧ matchesTag "availableServerReplicas" "availableServerReplicas" = true
    ∧ matchesTag "availableServerReplicas" "availableDatabaseReplicas" = false
    ∧ matchesTag "availableDatabaseReplicas" "availableDatabaseReplicas" = true
    ∧ matchesTag "availableServerReplicas" "submarineState" = false
    ∧ matchesTag "availableDatabaseReplicas" "submarineState" = false
    ∧ matchesTag "submarineState" "submarineState" = true
    ∧ matchesTag "kind" "kind" = true
    ∧ matchesTag "kind" "apiVersion" = false
    ∧ matchesTag "apiVersion" "apiVersion" = true
    ∧ matchesTag "kind" "metadata" = false
    ∧ matchesTag "apiVersion" "metadata" = false
    ∧ matchesTag "metadata" "metadata" = true
    ∧ matchesTag "kind" "spec" = false
    ∧ matchesTag "apiVersion" "spec" = false
    ∧ matchesTag "metadata" "spec" = false
    ∧ matchesTag "spec" "spec" = true
    ∧ matchesTag "kind" "status" = false
    ∧ matchesTag "apiVersion" "status" = false
    ∧ matchesTag "metadata" "status" = false
    ∧ matchesTag "spec" "status" = false
    ∧ matchesTag "status" "status" = true
    ∧ matchesTag "name" "name" = true
    ∧ matchesTag "name" "namespace" = false
    ∧ matchesTag "namespace" "namespace" = true
    ∧ matchesTag "name" "resourceVersion" = false
    ∧ matchesTag "namespace" "resourceVersion" = false
    ∧ matchesTag "resourceVersion" "resourceVersion" = true
    ∧ matchesTag "name" "creationTimestamp" = false
    ∧ matchesTag "namespace" "creationTimestamp" = false
    ∧ matchesTag "resourceVersion" "creationTimestamp" = false
    ∧ matchesTag "creationTimestamp" "creationTimestamp" = true
    ∧ matchesTag "name" "labels" = false
    ∧ matchesTag "namespace" "labels" = false
    ∧ matchesTag "resourceVersion" "labels" = false
    ∧ matchesTag "creationTimestamp" "labels" = false
    ∧ matchesTag "labels" "labels" = true := by
  repeat' apply And.intro
  all_goals decide

/-! ### UTF-8: decoding the encoding of a text gives the text -/

theorem val_ofNat (n : Nat) : (Fin.ofNat n : byte).val = n % 256 := rfl

theorem decodeRune_one (b0 : byte) (rest : List byte) (h0 : b0.val < 0x80) :
    decodeRune (b0 :: rest) = (Char.ofNat b0.val, 1) := by
  simp [decodeRune, h0]

theorem decodeRune_two (b0 b1 : byte) (rest : List byte)
    (h0 : 0xC2 ≤ b0.val ∧ b0.val ≤ 0xDF) (h1 : 0x80 ≤ b1.val ∧ b1.val ≤ 0xBF) :
    decodeRune (b0 :: b1 :: rest)
      = (Char.ofNat ((b0.val - 0xC0) * 64 + (b1.val - 0x80)), 2) := by
  have a1 : ¬ (b0.val < 0x80) := by omega
  simp [decodeRune, a1, h0, isCont, h1]

theorem decodeRune_three (b0 b1 b2 : byte) (rest : List byte)
    (h0 : 0xE0 ≤ b0.val ∧ b0.val ≤ 0xEF)
    (h1 : (if b0.val = 0xE0 then 0xA0 else 0x80) ≤ b1.val
      ∧ b1.val ≤ (if b0.val = 0xED then 0x9F else 0xBF))
    (h2 : 0x80 ≤ b2.val ∧ b2.val ≤ 0xBF) :
    decodeRune (b0 :: b1 :: b2 :: rest)
      = (Char.ofNat ((b0.val - 0xE0) * 4096 + (b1.val - 0x80) * 64 + (b2.val - 0x80)), 3) := by
  have a1 : ¬ (b0.val < 0x80) := by omega
  have a2 : ¬ (0xC2 ≤ b0.val ∧ b0.val ≤ 0xDF) := by omega
  simp only [decodeRune, a1, a2, h0, isCont, if_false, if_true, and_self]
  rw [if_pos ⟨h1.1, h1.2, by simp [h2]⟩]

theorem decodeRune_four (b0 b1 b2 b3 : byte) (rest : List byte)
    (h0 : 0xF0 ≤ b0.val ∧ b0.val ≤ 0xF4)
    (h1 : (if b0.val = 0xF0 then 0x90 else 0x80) ≤ b1.val
      ∧ b1.val ≤ (if b0.val = 0xF4 then 0x8F else 0xBF))
    (h2 : 0x80 ≤ b2.val ∧ b2.val ≤ 0xBF) (h3 : 0x80 ≤ b3.val ∧ b3.val ≤ 0xBF) :
    decodeRune (b0 :: b1 :: b2 :: b3 :: rest)
      = (Char.ofNat ((b0.val - 0xF0) * 262144 + (b1.val - 0x80) * 4096
          + (b2.val - 0x80) * 64 + (b3.val - 0x80)), 4) := by
  have a1 : ¬ (b0.val < 0x80) := by omega
  have a2 : ¬ (0xC2 ≤ b0.val ∧ b0.val ≤ 0xDF) := by omega
  have a3 : ¬ (0xE0 ≤ b0.val ∧ b0.val ≤ 0xEF) := by omega
  simp only [decodeRune, a1, a2, a3, h0, isCont, if_false, if_true, and_self]
  rw [if_pos ⟨h1.1, h1.2, by simp [h2], by simp [h3]⟩]

theorem decodeRune_encode (c : Char) (rest : List byte) :
    decodeRune (utf8EncodeChar c ++ rest) = (c, (utf8EncodeChar c).length) := by
  have hv : c.toNat < 0xD800 ∨ (0xDFFF < c.toNat ∧ c.toNat < 0x110000) := c.valid
  have hc : Char.ofNat c.toNat = c := Char.ofNat_toNat c
  unfold utf8EncodeChar
  generalize c.toNat = n at hv hc ⊢
  simp only []
  by_cases h1 : n < 0x80
  · simp only [h1, if_true, List.cons_append, List.nil_append, List.length_cons,
      List.length_nil]
    rw [decodeRune_one _ _ (by rw [val_ofNat]; omega), val_ofNat]
    have e : n % 256 = n := by omega
    rw [e, hc]
  · by_cases h2 : n < 0x800
    · simp only [h1, h2, if_true, if_false, List.cons_append, List.nil_append,
        List.length_cons, List.length_nil]
      rw [decodeRune_two _ _ _ (by rw [val_ofNat]; omega) (by rw [val_ofNat]; omega)]
      simp only [val_ofNat]
      have e : ((0xC0 + n / 64) % 256 - 0xC0) * 64 + ((0x80 + n % 64) % 256 - 0x80) = n := by
        omega
      rw [e, hc]
    · by_cases h3 : n < 0x10000
      · simp only [h1, h2, h3, if_true, if_false, List.cons_append, List.nil_append,
          List.length_cons, List.length_nil]
        rw [decodeRune_three _ _ _ _ (by rw [val_ofNat]; omega)
          (by simp only [val_ofNat]; constructor <;> split <;> omega)
          (by rw [val_ofNat]; omega)]
        simp only [val_ofNat]
        have e : ((0xE0 + n / 4096) % 256 - 0xE0) * 4096
            + ((0x80 + n / 64 % 64) % 256 - 0x80) * 64 + ((0x80 + n % 64) % 256 - 0x80) = n := by
          omega
        rw [e, hc]
      · simp only [h1, h2, h3, if_false, List.cons_append, List.nil_append,
          List.length_cons, List.length_nil]
        rw [decodeRune_four _ _ _ _ _ (by rw [val_ofNat]; omega)
          (by simp only [val_ofNat]; constructor <;> split <;> omega)
          (by rw [val_ofNat]; omega) (by rw [val_ofNat]; omega)]
        simp only [val_ofNat]
        have e : ((0xF0 + n / 262144) % 256 - 0xF0) * 262144
            + ((0x80 + n / 4096 % 64) % 256 - 0x80) * 4096
            + ((0x80 + n / 64 % 64) % 256 - 0x80) * 64 + ((0x80 + n % 64) % 256 - 0x80) = n := by
          omega
        rw [e, hc]

theorem utf8EncodeChar_length_pos (c : Char) : 0 < (utf8EncodeChar c).length := by
  unfold utf8EncodeChar
  simp only []
  split_ifs <;> simp

theorem utf8EncodeChar_ne_nil (c : Char) : utf8EncodeChar c ≠ [] := by
  intro h
  have := utf8EncodeChar_length_pos c
  rw [h] at this
  simp at this

theorem decodeRunesAux_encode (cs : List Char) (fuel : Nat)
    (hf : cs.length ≤ fuel) : decodeRunesAux fuel (utf8Encode cs) = cs := by
  induction cs generalizing fuel with
  | nil => cases fuel <;> simp [utf8Encode, decodeRunesAux]
  | cons c cs ih =>
    cases fuel with
    | zero => simp at hf
    | succ fuel =>
      simp only [utf8Encode]
      cases hb : utf8EncodeChar c with
      | nil => exact absurd hb (utf8EncodeChar_ne_nil c)
      | cons b bs =>
        have h := decodeRune_encode c (utf8Encode cs)
        rw [hb] at h
        simp only [List.cons_append] at h ⊢
        simp only [decodeRunesAux, h]
        have hd : (b :: (bs ++ utf8Encode cs)).drop (b :: bs).length = utf8Encode cs := by
          rw [← List.cons_append, List.drop_left]
        rw [hd, ih fuel (by simpa using hf)]

theorem length_le_utf8Encode (cs : List Char) : cs.length ≤ (utf8Encode cs).length := by
  induction cs with
  | nil => simp [utf8Encode]
  | cons c cs ih =>
    have := utf8EncodeChar_length_pos c
    simp only [utf8Encode, List.length_cons, List.length_append]
    omega

theorem toText_ofText (t : String) : (GoString.ofText t).toText = t := by
  simp only [GoString.toText, GoString.ofText, decodeRunes]
  rw [decodeRunesAux_encode _ _ (length_le_utf8Encode _)]

theorem decodeRune_width_pos (s : List byte) : 1 ≤ (decodeRune s).2 := by
  unfold decodeRune
  split
  · simp
  · split_ifs <;> (try simp) <;> split <;> (try simp) <;> split_ifs <;> simp

theorem decodeRunesAux_fuel (f g : Nat) (s : List byte) (hf : s.length ≤ f)
    (hg : s.length ≤ g) : decodeRunesAux f s = decodeRunesAux g s := by
  induction f generalizing g s with
  | zero =>
    have hs : s = [] := List.length_eq_zero.mp (Nat.le_zero.mp hf)
    subst hs
    cases g <;> simp [decodeRunesAux]
  | succ f ih =>
    cases s with
    | nil => cases g <;> simp [decodeRunesAux]
    | cons b bs =>
      cases g with
      | zero => simp at hg
      | succ g =>
        simp only [decodeRunesAux]
        have hw := decodeRune_width_pos (b :: bs)
        have hl : ((b :: bs).drop (decodeRune (b :: bs)).2).length ≤ bs.length := by
          simp only [List.length_drop, List.length_cons]
          omega
        simp only [List.length_cons] at hf hg
        rw [ih g _ (by omega) (by omega)]

theorem ofText_empty : GoString.ofText "" = GoString.empty := rfl

theorem ofText_bytes_eq_nil (t : String) : (GoString.ofText t).bytes = [] ↔ t = "" := by
  obtain ⟨cs⟩ := t
  cases cs with
  | nil => simp [GoString.ofText, utf8Encode]
  | cons c cs =>
    have h := utf8EncodeChar_ne_nil c
    constructor
    · intro h'
      simp [GoString.ofText, utf8Encode, h] at h'
    · intro h'
      have h2 := congrArg String.data h'
      simp at h2

theorem ofText_toText_of_valid (s : GoString) (h : s.Valid) :
    GoString.ofText s.toText = s := by
  obtain ⟨t, rfl⟩ := h
  rw [toText_ofText]

theorem bytes_eq_nil_iff (s : GoString) : s.bytes = [] ↔ s = GoString.empty := by
  obtain ⟨b⟩ := s
  simp [GoString.empty]

/-! ### The shape of encoded documents -/

/-- C2, as stated, fails: for the error message `"bad\xff"` the `errorMessage`
member holds the text `bad` followed by U+FFFD, whose bytes are not the
message; no text has the message as its bytes. -/
theorem invalid_utf8_message_is_rewritten :
    (SubmarineState.encode ⟨FailedState, badString⟩).lookup "errorMessage"
      = some (JSON.str "bad\uFFFD")
    ∧ GoString.ofText "bad\uFFFD" ≠ badString
    ∧ ¬ ∃ t, (SubmarineState.encode ⟨FailedState, badString⟩).lookup "errorMessage"
          = some (JSON.str t) ∧ GoString.ofText t = badString := by
  have h1 : (SubmarineState.encode ⟨FailedState, badString⟩).lookup "errorMessage"
      = some (JSON.str "bad\uFFFD") := by rfl
  have h2 : GoString.ofText "bad\uFFFD" ≠ badString := by decide
  refine ⟨h1, h2, ?_⟩
  rintro ⟨t, ht, hb⟩
  rw [h1] at ht
  injection ht with ht
  injection ht with ht
  subst ht
  exact h2 hb

/-- C2, amended: the document of a `SubmarineState` has the key `errorMessage`
exactly when the error message is not empty; its value is then the message as
the encoder writes a Go string (U+FFFD for each byte that is not part of a valid
UTF-8 sequence), which is the message itself when the message is the UTF-8 of a
text; the document of a status in state `""` with an empty message has no
`errorMessage` key, neither at the top nor under `submarineState`. -/
theorem errorMessage_omitted_iff_empty (s : SubmarineState) (t : String) (a b : int32) :
    (s.encode.hasKey "errorMessage" = true ↔ s.ErrorMessage ≠ GoString.empty)
    ∧ s.encode.lookup "errorMessage"
        = (if s.ErrorMessage = GoString.empty then none
           else some (JSON.str s.ErrorMessage.toText))
    ∧ (SubmarineState.encode ⟨s.State, GoString.ofText t⟩).lookup "errorMessage"
        = (if t = "" then none else some (JSON.str t))
    ∧ SubmarineStatus.encode ⟨a, b, ⟨NewState, GoString.empty⟩⟩
        = JSON.obj [("availableServerReplicas", JSON.int a.val),
            ("availableDatabaseReplicas", JSON.int b.val),
            ("submarineState", JSON.obj [("state", JSON.str "")])]
    ∧ (SubmarineStatus.encode ⟨a, b, ⟨NewState, GoString.empty⟩⟩).hasKey "errorMessage" = false
    ∧ (SubmarineState.encode ⟨NewState, GoString.empty⟩).hasKey "errorMessage" = false := by
  refine ⟨?_, ?_, ?_, ?_, ?_, ?_⟩
  · by_cases h : s.ErrorMessage.bytes = [] <;>
      simp [SubmarineState.encode, JSON.hasKey, JSON.members, field, fieldOmitEmptyString, h,
        ← bytes_eq_nil_iff]
  · by_cases h : s.ErrorMessage.bytes = [] <;>
      simp [SubmarineState.encode, JSON.lookup, JSON.members, field, fieldOmitEmptyString, h,
        ← bytes_eq_nil_iff]
  · by_cases h : t = ""
    · subst h
      simp [SubmarineState.encode, JSON.lookup, JSON.members, field, fieldOmitEmptyString,
        ofText_bytes_eq_nil]
    · simp [SubmarineState.encode, JSON.lookup, JSON.members, field, fieldOmitEmptyString,
        ofText_bytes_eq_nil, toText_ofText, h]
  · have h : (NewState : GoString).toText = "" := by decide
    simp [SubmarineStatus.encode, SubmarineState.encode, field, fieldOmitEmptyString,
      fieldOmitEmptyStruct, encodeInt32, GoString.empty, h]
  · simp [SubmarineStatus.encode, JSON.hasKey, JSON.members, field, fieldOmitEmptyStruct]
  · simp [SubmarineState.encode, JSON.hasKey, JSON.members, field, fieldOmitEmptyString,
      GoString.empty]

/-- C3, as stated, fails: the document of a `SubmarineServer` whose `Replicas`
is `nil` does have a `replicas` key. -/
theorem replicas_key_present_for_nil :
    ¬ ((SubmarineServer.encode ⟨"submarine-server:0.7.0", none⟩).hasKey "replicas" = false) := by
  simp [SubmarineServer.encode, JSON.hasKey, JSON.members, field]

/-- C3, amended: for every `SubmarineServer` and every `SubmarineDatabase` whose
`Replicas` is `nil`, the document has the key `replicas` and its value is
`null` (the tag has no `omitempty`), which is not the number `0`. -/
theorem nil_replicas_encodes_null (image storageSize secret : GoString) :
    (SubmarineServer.encode ⟨image, none⟩).hasKey "replicas" = true
    ∧ (SubmarineServer.encode ⟨image, none⟩).lookup "replicas" = some JSON.null
    ∧ (SubmarineDatabase.encode ⟨image, none, storageSize, secret⟩).hasKey "replicas" = true
    ∧ (SubmarineDatabase.encode ⟨image, none, storageSize, secret⟩).lookup "replicas"
        = some JSON.null
    ∧ JSON.null ≠ JSON.int 0 := by
  simp [SubmarineServer.encode, SubmarineDatabase.encode, JSON.hasKey, JSON.lookup,
    JSON.members, field, encodePtr]

/-- C4, as stated, fails: the document of the example spec, whose `Database` is
`nil`, does have a `database` key. -/
theorem database_key_present_for_nil :
    ¬ ((SubmarineSpec.encode ⟨"0.7.0", some ⟨"submarine-server:0.7.0", some ⟨1, by decide⟩⟩,
          none, none, none, none, none⟩).hasKey "database" = false) := by
  simp [SubmarineSpec.encode, JSON.hasKey, JSON.members, field]

/-- C4, amended: every sub-spec key of a `SubmarineSpec` document is present
whatever the pointer, with value `null` when the pointer is `nil`; the document
of the example spec holds `"version":"0.7.0"`, the nested `server` object and
`"database":null`. -/
theorem nil_subspec_encodes_null (s : SubmarineSpec) :
    s.encode.lookup "server" = some (encodePtr SubmarineServer.encode s.Server)
    ∧ s.encode.lookup "database" = some (encodePtr SubmarineDatabase.encode s.Database)
    ∧ s.encode.lookup "tensorboard"
        = some (encodePtr SubmarineTensorboard.encode s.Tensorboard)
    ∧ s.encode.lookup "mlflow" = some (encodePtr SubmarineMlflow.encode s.Mlflow)
    ∧ s.encode.lookup "minio" = some (encodePtr SubmarineMinio.encode s.Minio)
    ∧ s.encode.lookup "storage" = some (encodePtr SubmarineStorage.encode s.Storage)
    ∧ encodePtr SubmarineServer.encode none = JSON.null
    ∧ encodePtr SubmarineDatabase.encode none = JSON.null
    ∧ encodePtr SubmarineTensorboard.encode none = JSON.null
    ∧ encodePtr SubmarineMlflow.encode none = JSON.null
    ∧ encodePtr SubmarineMinio.encode none = JSON.null
    ∧ encodePtr SubmarineStorage.encode none = JSON.null
    ∧ SubmarineSpec.encode ⟨"0.7.0", some ⟨"submarine-server:0.7.0", some ⟨1, by decide⟩⟩,
          none, none, none, none, none⟩
        = JSON.obj [("version", JSON.str "0.7.0"),
            ("server", JSON.obj [("image", JSON.str "submarine-server:0.7.0"),
              ("replicas", JSON.int 1)]),
            ("database", JSON.null), ("tensorboard", JSON.null), ("mlflow", JSON.null),
            ("minio", JSON.null), ("storage", JSON.null)] := by
  simp [SubmarineSpec.encode, SubmarineServer.encode, JSON.lookup, JSON.members, field,
    encodePtr, encodeInt32, toText_ofText]

/-- C6, as stated, fails: a `state` outside the four constants is decoded
without error. -/
theorem unknown_state_is_accepted :
    ("PAUSED" : GoString) ∉ [NewState, CreatingState, RunningState, FailedState]
    ∧ SubmarineState.decode (JSON.obj [("state", JSON.str "PAUSED")])
        = Except.ok ⟨"PAUSED", ""⟩
    ∧ SubmarineStatus.decode
        (JSON.obj [("submarineState", JSON.obj [("state", JSON.str "PAUSED")])])
        = Except.ok ⟨int32.zero, int32.zero, ⟨"PAUSED", ""⟩⟩ := by
  refine ⟨by decide, rfl, rfl⟩

/-- C6, amended: `SubmarineStateType` is an open string type, so decoding a
`SubmarineState` or `SubmarineStatus` document succeeds for every `state` string
and yields that string as the state. -/
theorem every_state_string_decodes (st msg : String) :
    SubmarineState.decode (JSON.obj [("state", JSON.str st)]) = Except.ok ⟨st, ""⟩
    ∧ SubmarineState.decode (JSON.obj [("state", JSON.str st), ("errorMessage", JSON.str msg)])
        = Except.ok ⟨st, msg⟩
    ∧ SubmarineStatus.decode (JSON.obj [("submarineState", JSON.obj [("state", JSON.str st)])])
        = Except.ok ⟨int32.zero, int32.zero, ⟨st, ""⟩⟩
    ∧ SubmarineStatus.decode (JSON.obj [("submarineState",
          JSON.obj [("state", JSON.str st), ("errorMessage", JSON.str msg)])])
        = Except.ok ⟨int32.zero, int32.zero, ⟨st, msg⟩⟩ := by
  simp [SubmarineState.decode, SubmarineState.decodeInto, SubmarineState.setField,
    SubmarineStatus.decode, SubmarineStatus.decodeInto, SubmarineStatus.setField,
    decodeStruct, decodeMembers, decodeString, Except.map, SubmarineState.zero,
    SubmarineStatus.zero, tag_table, ofText_empty]

/-- C10, as stated, fails: for the state string `"bad\xff"` the `state` member
under `submarineState` holds the text `bad` followed by U+FFFD, whose bytes are
not the state string. -/
theorem invalid_utf8_state_is_rewritten :
    (SubmarineState.encode
        (SubmarineStatus.mk int32.zero int32.zero ⟨badString, ""⟩).SubmarineState).lookup "state"
      = some (JSON.str "bad\uFFFD")
    ∧ (SubmarineStatus.encode ⟨int32.zero, int32.zero, ⟨badString, ""⟩⟩).lookup "submarineState"
      = some (JSON.obj [("state", JSON.str "bad\uFFFD")])
    ∧ GoString.ofText "bad\uFFFD" ≠ badString := by
  refine ⟨rfl, rfl, by decide⟩

/-- C10, amended: the document of every `SubmarineStatus` has the two replica
counters as keys with the counts as values, carries the state as an object under
`submarineState`, and has neither `state` nor `errorMessage` as a top-level key;
so does the zero status.  The `state` member of that object is the state string
as the encoder writes a Go string (U+FFFD for each byte that is not part of a
valid UTF-8 sequence), which is the state string itself when that is the UTF-8
of a text. -/
theorem status_document_shape (s : SubmarineStatus) (t : String) (msg : GoString) :
    s.encode.lookup "availableServerReplicas" = some (JSON.int s.AvailableServerReplicas.val)
    ∧ s.encode.lookup "availableDatabaseReplicas"
        = some (JSON.int s.AvailableDatabaseReplicas.val)
    ∧ s.encode.hasKey "availableServerReplicas" = true
    ∧ s.encode.hasKey "availableDatabaseReplicas" = true
    ∧ s.encode.hasKey "submarineState" = true
    ∧ s.encode.lookup "submarineState" = some (SubmarineState.encode s.SubmarineState)
    ∧ (∃ ms, SubmarineState.encode s.SubmarineState = JSON.obj ms)
    ∧ (SubmarineState.encode s.SubmarineState).lookup "state"
        = some (JSON.str s.SubmarineState.State.toText)
    ∧ (SubmarineState.encode ⟨GoString.ofText t, msg⟩).lookup "state" = some (JSON.str t)
    ∧ s.encode.hasKey "state" = false
    ∧ s.encode.hasKey "errorMessage" = false
    ∧ SubmarineStatus.encode SubmarineStatus.zero
        = JSON.obj [("availableServerReplicas", JSON.int 0),
            ("availableDatabaseReplicas", JSON.int 0),
            ("submarineState", JSON.obj [("state", JSON.str "")])] := by
  have h : GoString.empty.toText = "" := by decide
  simp [SubmarineStatus.encode, SubmarineState.encode, JSON.hasKey, JSON.lookup,
    JSON.members, field, fieldOmitEmptyStruct, fieldOmitEmptyString, encodeInt32,
    SubmarineStatus.zero, SubmarineState.zero, int32.zero, toText_ofText, h]
  simp [GoString.empty]

/-! ### Round trip -/

theorem decodeInt32_encodeInt32 (dst n : int32) :
    decodeInt32 dst (encodeInt32 n) = Except.ok n := by
  obtain ⟨i, h⟩ := n
  simp [decodeInt32, encodeInt32, h]

theorem decodePtr_encodePtr {α : Type} (P : α → Prop) (zero : α)
    (decodeInto : α → JSON → Except DecodeError α) (enc : α → JSON)
    (h : ∀ a, P a → decodeInto zero (enc a) = Except.ok a)
    (hn : ∀ a, enc a ≠ JSON.null) (p : Option α) (hp : optValid P p) :
    decodePtr zero decodeInto none (encodePtr enc p) = Except.ok p := by
  cases p with
  | none => simp [decodePtr, encodePtr]
  | some a =>
    have h1 := h a hp
    have h2 := hn a
    simp only [encodePtr]
    cases hj : enc a <;> simp_all [decodePtr, Except.map]

theorem empty_bytes : GoString.empty.bytes = [] := rfl

theorem decodeString_toText (dst s : GoString) (h : s.Valid) :
    decodeString dst (JSON.str s.toText) = Except.ok s := by
  simp [decodeString, ofText_toText_of_valid s h]

theorem SubmarineServer_decode_encode (v : SubmarineServer) (hv : v.StringsValid) :
    SubmarineServer.decodeInto SubmarineServer.zero v.encode = Except.ok v := by
  obtain ⟨image, replicas⟩ := v
  have hp := decodePtr_encodePtr (fun _ => True) int32.zero decodeInt32 encodeInt32
    (fun a _ => decodeInt32_encodeInt32 int32.zero a) (by intro a; simp [encodeInt32]) replicas
    (by cases replicas <;> trivial)
  have h1 := decodeString_toText GoString.empty image hv
  simp [SubmarineServer.decodeInto, SubmarineServer.encode, SubmarineServer.setField,
    SubmarineServer.zero, decodeStruct, decodeMembers, field, Except.map, hp, h1, tag_table]

theorem SubmarineDatabase_decode_encode (v : SubmarineDatabase) (hv : v.StringsValid) :
    SubmarineDatabase.decodeInto SubmarineDatabase.zero v.encode = Except.ok v := by
  obtain ⟨image, replicas, size, secret⟩ := v
  obtain ⟨v1, v2, v3⟩ := hv
  have hp := decodePtr_encodePtr (fun _ => True) int32.zero decodeInt32 encodeInt32
    (fun a _ => decodeInt32_encodeInt32 int32.zero a) (by intro a; simp [encodeInt32]) replicas
    (by cases replicas <;> trivial)
  have h1 := decodeString_toText GoString.empty image v1
  have h2 := decodeString_toText GoString.empty size v2
  have h3 := decodeString_toText GoString.empty secret v3
  simp [SubmarineDatabase.decodeInto, SubmarineDatabase.encode, SubmarineDatabase.setField,
    SubmarineDatabase.zero, decodeStruct, decodeMembers, field, Except.map, hp, h1, h2, h3,
    tag_table]

theorem decodeBool_encode (dst b : Bool) : decodeBool dst (JSON.bool b) = Except.ok b := by
  simp [decodeBool]

theorem SubmarineTensorboard_decode_encode (v : SubmarineTensorboard) (hv : v.StringsValid) :
    SubmarineTensorboard.decodeInto SubmarineTensorboard.zero v.encode = Except.ok v := by
  obtain ⟨enabled, size⟩ := v
  have hp := decodePtr_encodePtr (fun _ => True) false decodeBool JSON.bool
    (fun a _ => decodeBool_encode false a) (by intro a; simp) enabled
    (by cases enabled <;> trivial)
  have h1 := decodeString_toText GoString.empty size hv
  simp [SubmarineTensorboard.decodeInto, SubmarineTensorboard.encode,
    SubmarineTensorboard.setField, SubmarineTensorboard.zero, decodeStruct, decodeMembers,
    field, Except.map, hp, h1, tag_table]

theorem SubmarineMlflow_decode_encode (v : SubmarineMlflow) (hv : v.StringsValid) :
    SubmarineMlflow.decodeInto SubmarineMlflow.zero v.encode = Except.ok v := by
  obtain ⟨enabled, size⟩ := v
  have hp := decodePtr_encodePtr (fun _ => True) false decodeBool JSON.bool
    (fun a _ => decodeBool_encode false a) (by intro a; simp) enabled
    (by cases enabled <;> trivial)
  have h1 := decodeString_toText GoString.empty size hv
  simp [SubmarineMlflow.decodeInto, SubmarineMlflow.encode,
    SubmarineMlflow.setField, SubmarineMlflow.zero, decodeStruct, decodeMembers,
    field, Except.map, hp, h1, tag_table]

theorem SubmarineMinio_decode_encode (v : SubmarineMinio) (hv : v.StringsValid) :
    SubmarineMinio.decodeInto SubmarineMinio.zero v.encode = Except.ok v := by
  obtain ⟨enabled, size⟩ := v
  have hp := decodePtr_encodePtr (fun _ => True) false decodeBool JSON.bool
    (fun a _ => decodeBool_encode false a) (by intro a; simp) enabled
    (by cases enabled <;> trivial)
  have h1 := decodeString_toText GoString.empty size hv
  simp [SubmarineMinio.decodeInto, SubmarineMinio.encode,
    SubmarineMinio.setField, SubmarineMinio.zero, decodeStruct, decodeMembers,
    field, Except.map, hp, h1, tag_table]

theorem SubmarineStorage_decode_encode (v : SubmarineStorage) (hv : v.StringsValid) :
    SubmarineStorage.decodeInto SubmarineStorage.zero v.encode = Except.ok v := by
  obtain ⟨t, hp, np, ip⟩ := v
  obtain ⟨v1, v2, v3, v4⟩ := hv
  have h1 := decodeString_toText GoString.empty t v1
  have h2 := decodeString_toText GoString.empty hp v2
  have h3 := decodeString_toText GoString.empty np v3
  have h4 := decodeString_toText GoString.empty ip v4
  simp [SubmarineStorage.decodeInto, SubmarineStorage.encode,
    SubmarineStorage.setField, SubmarineStorage.zero, decodeStruct, decodeMembers,
    field, Except.map, h1, h2, h3, h4, tag_table]

theorem SubmarineSpec_decode_encode (v : SubmarineSpec) (hv : v.StringsValid) :
    SubmarineSpec.decode v.encode = Except.ok v := by
  obtain ⟨version, server, database, tensorboard, mlflow, minio, storage⟩ := v
  obtain ⟨v0, v1, v2, v3, v4, v5, v6⟩ := hv
  have h0 := decodeString_toText GoString.empty version v0
  have h1 := decodePtr_encodePtr _ SubmarineServer.zero SubmarineServer.decodeInto
    SubmarineServer.encode SubmarineServer_decode_encode
    (by intro a; simp [SubmarineServer.encode]) server v1
  have h2 := decodePtr_encodePtr _ SubmarineDatabase.zero SubmarineDatabase.decodeInto
    SubmarineDatabase.encode SubmarineDatabase_decode_encode
    (by intro a; simp [SubmarineDatabase.encode]) database v2
  have h3 := decodePtr_encodePtr _ SubmarineTensorboard.zero SubmarineTensorboard.decodeInto
    SubmarineTensorboard.encode SubmarineTensorboard_decode_encode
    (by intro a; simp [SubmarineTensorboard.encode]) tensorboard v3
  have h4 := decodePtr_encodePtr _ SubmarineMlflow.zero SubmarineMlflow.decodeInto
    SubmarineMlflow.encode SubmarineMlflow_decode_encode
    (by intro a; simp [SubmarineMlflow.encode]) mlflow v4
  have h5 := decodePtr_encodePtr _ SubmarineMinio.zero SubmarineMinio.decodeInto
    SubmarineMinio.encode SubmarineMinio_decode_encode
    (by intro a; simp [SubmarineMinio.encode]) minio v5
  have h6 := decodePtr_encodePtr _ SubmarineStorage.zero SubmarineStorage.decodeInto
    SubmarineStorage.encode SubmarineStorage_decode_encode
    (by intro a; simp [SubmarineStorage.encode]) storage v6
  simp [SubmarineSpec.decode, SubmarineSpec.decodeInto, SubmarineSpec.encode,
    SubmarineSpec.setField, SubmarineSpec.zero, decodeStruct, decodeMembers,
    field, Except.map, h0, h1, h2, h3, h4, h5, h6, tag_table]

theorem SubmarineState_decode_encode (v : SubmarineState) (hv : v.StringsValid) :
    SubmarineState.decodeInto SubmarineState.zero v.encode = Except.ok v := by
  obtain ⟨st, msg⟩ := v
  obtain ⟨v1, v2⟩ := hv
  have h1 := decodeString_toText GoString.empty st v1
  have h2 := decodeString_toText GoString.empty msg v2
  by_cases h : msg.bytes = []
  · have hm : msg = GoString.empty := (bytes_eq_nil_iff msg).mp h
    subst hm
    simp [SubmarineState.decodeInto, SubmarineState.encode, SubmarineState.setField,
      SubmarineState.zero, decodeStruct, decodeMembers, field,
      fieldOmitEmptyString, Except.map, h1, tag_table, empty_bytes]
  · simp [SubmarineState.decodeInto, SubmarineState.encode, SubmarineState.setField,
      SubmarineState.zero, decodeStruct, decodeMembers, field,
      fieldOmitEmptyString, Except.map, h, h1, h2, tag_table]

theorem SubmarineStatus_decode_encode (v : SubmarineStatus) (hv : v.StringsValid) :
    SubmarineStatus.decode v.encode = Except.ok v := by
  obtain ⟨a, b, st⟩ := v
  have hs := SubmarineState_decode_encode st hv
  simp [SubmarineStatus.decode, SubmarineStatus.decodeInto, SubmarineStatus.encode,
    SubmarineStatus.setField, SubmarineStatus.zero, decodeStruct, decodeMembers, field,
    fieldOmitEmptyStruct, Except.map, decodeInt32_encodeInt32, hs, tag_table]

theorem Submarine_decode_encode {M : Type} (mc : MetaCodec M) (v : Submarine M)
    (hv : v.StringsValid)
    (hmeta : mc.decodeInto mc.zero (mc.encode v.ObjectMeta) = Except.ok v.ObjectMeta) :
    Submarine.decode mc (Submarine.encode mc v) = Except.ok v := by
  obtain ⟨⟨kind, apiVersion⟩, m, spec, status⟩ := v
  obtain ⟨v1, v2, v3, v4⟩ := hv
  have hs : SubmarineSpec.decodeInto SubmarineSpec.zero spec.encode = Except.ok spec :=
    SubmarineSpec_decode_encode spec v3
  have ht : SubmarineStatus.decodeInto SubmarineStatus.zero status.encode = Except.ok status :=
    SubmarineStatus_decode_encode status v4
  have h1 := decodeString_toText GoString.empty kind v1
  have h2 := decodeString_toText GoString.empty apiVersion v2
  simp only [] at hmeta
  by_cases hk : kind.bytes = [] <;> by_cases ha : apiVersion.bytes = []
  · have e1 := (bytes_eq_nil_iff kind).mp hk
    have e2 := (bytes_eq_nil_iff apiVersion).mp ha
    subst e1 e2
    simp [Submarine.decode, Submarine.decodeInto, Submarine.encode, Submarine.setField,
      Submarine.zero, TypeMeta.encodeInline, TypeMeta.zero, decodeStruct, decodeMembers,
      field, fieldOmitEmptyStruct, fieldOmitEmptyString, Except.map, empty_bytes,
      hmeta, hs, ht, tag_table]
  · have e1 := (bytes_eq_nil_iff kind).mp hk
    subst e1
    simp [Submarine.decode, Submarine.decodeInto, Submarine.encode, Submarine.setField,
      Submarine.zero, TypeMeta.encodeInline, TypeMeta.zero, decodeStruct, decodeMembers,
      field, fieldOmitEmptyStruct, fieldOmitEmptyString, Except.map, empty_bytes, ha, h2,
      hmeta, hs, ht, tag_table]
  · have e2 := (bytes_eq_nil_iff apiVersion).mp ha
    subst e2
    simp [Submarine.decode, Submarine.decodeInto, Submarine.encode, Submarine.setField,
      Submarine.zero, TypeMeta.encodeInline, TypeMeta.zero, decodeStruct, decodeMembers,
      field, fieldOmitEmptyStruct, fieldOmitEmptyString, Except.map, empty_bytes, hk, h1,
      hmeta, hs, ht, tag_table]
  · simp [Submarine.decode, Submarine.decodeInto, Submarine.encode, Submarine.setField,
      Submarine.zero, TypeMeta.encodeInline, TypeMeta.zero, decodeStruct, decodeMembers,
      field, fieldOmitEmptyStruct, fieldOmitEmptyString, Except.map, hk, ha, h1, h2,
      hmeta, hs, ht, tag_table]

theorem valid_ofText (t : String) : (GoString.ofText t).Valid := ⟨t, rfl⟩

theorem valid_empty : GoString.empty.Valid := ⟨"", rfl⟩

theorem zero_spec_valid : SubmarineSpec.zero.StringsValid :=
  ⟨valid_empty, trivial, trivial, trivial, trivial, trivial, trivial⟩

theorem zero_status_valid : SubmarineStatus.zero.StringsValid := ⟨valid_empty, valid_empty⟩

/-- C1, as stated, fails.  A status whose error message is `"bad\xff"` decodes
from its own document with the message `bad` followed by U+FFFD, a different
value.  A `Submarine` all of whose strings are valid UTF-8 but whose label map
is empty and not `nil` decodes from its own document with a `nil` label map, a
different value. -/
theorem roundtrip_fails :
    SubmarineStatus.decode
        (SubmarineStatus.encode ⟨int32.zero, int32.zero, ⟨FailedState, badString⟩⟩)
      = Except.ok ⟨int32.zero, int32.zero, ⟨FailedState, "bad\uFFFD"⟩⟩
    ∧ SubmarineStatus.decode
        (SubmarineStatus.encode ⟨int32.zero, int32.zero, ⟨FailedState, badString⟩⟩)
      ≠ Except.ok ⟨int32.zero, int32.zero, ⟨FailedState, badString⟩⟩
    ∧ emptyLabelsSubmarine.StringsValid
    ∧ Submarine.decode objectMetaCodec (Submarine.encode objectMetaCodec emptyLabelsSubmarine)
      = Except.ok { emptyLabelsSubmarine with
          ObjectMeta := { emptyLabelsSubmarine.ObjectMeta with Labels := none } }
    ∧ Submarine.decode objectMetaCodec (Submarine.encode objectMetaCodec emptyLabelsSubmarine)
      ≠ Except.ok emptyLabelsSubmarine := by
  have h1 : SubmarineStatus.decode
        (SubmarineStatus.encode ⟨int32.zero, int32.zero, ⟨FailedState, badString⟩⟩)
      = Except.ok ⟨int32.zero, int32.zero, ⟨FailedState, "bad\uFFFD"⟩⟩ := by rfl
  have h2 : Submarine.decode objectMetaCodec
        (Submarine.encode objectMetaCodec emptyLabelsSubmarine)
      = Except.ok { emptyLabelsSubmarine with
          ObjectMeta := { emptyLabelsSubmarine.ObjectMeta with Labels := none } } := by rfl
  refine ⟨h1, ?_, ?_, h2, ?_⟩
  · rw [h1]
    intro h
    injection h with h
    revert h
    decide
  · exact ⟨valid_ofText _, valid_ofText _, zero_spec_valid, zero_status_valid⟩
  · rw [h2]
    intro h
    injection h with h
    revert h
    decide

/-- C1, amended: decoding the document that encoding produces gives the value
back for every `SubmarineSpec` and every `SubmarineStatus` all of whose strings
are valid UTF-8, whatever pointers are `nil`, and for every `Submarine` all of
whose strings are valid UTF-8 and whose object metadata the imported metadata
codec gives back. -/
theorem valid_utf8_roundtrip {M : Type} (mc : MetaCodec M) :
    (∀ v : Submarine M, v.StringsValid →
      mc.decodeInto mc.zero (mc.encode v.ObjectMeta) = Except.ok v.ObjectMeta →
      Submarine.decode mc (Submarine.encode mc v) = Except.ok v)
    ∧ (∀ s : SubmarineSpec, s.StringsValid → SubmarineSpec.decode s.encode = Except.ok s)
    ∧ (∀ s : SubmarineStatus, s.StringsValid →
      SubmarineStatus.decode s.encode = Except.ok s) :=
  ⟨fun v hv hm => Submarine_decode_encode mc v hv hm, SubmarineSpec_decode_encode,
    SubmarineStatus_decode_encode⟩

/-- Witness of C1: every string of the example `Submarine` in state `FAILED` is
valid UTF-8 and its metadata (a name, a namespace, the zero creation timestamp
and one label) is given back, and the example round-trips, as does its status. -/
theorem valid_utf8_roundtrip_witness :
    failedSubmarine.StringsValid
    ∧ objectMetaCodec.decodeInto objectMetaCodec.zero
        (objectMetaCodec.encode failedSubmarine.ObjectMeta)
        = Except.ok failedSubmarine.ObjectMeta
    ∧ Submarine.decode objectMetaCodec (Submarine.encode objectMetaCodec failedSubmarine)
        = Except.ok failedSubmarine
    ∧ SubmarineStatus.decode (SubmarineStatus.encode failedSubmarine.Status)
        = Except.ok failedSubmarine.Status :=
  have hv : failedSubmarine.StringsValid :=
    ⟨valid_ofText _, valid_ofText _,
      ⟨valid_ofText _, valid_ofText _, trivial, valid_ofText _, trivial, valid_ofText _,
        trivial⟩,
      ⟨valid_ofText _, valid_ofText _⟩⟩
  ⟨hv, rfl, (valid_utf8_roundtrip objectMetaCodec).1 failedSubmarine hv rfl,
    (valid_utf8_roundtrip objectMetaCodec).2.2 failedSubmarine.Status hv.2.2.2⟩

/-! ### Absent `replicas` against explicit zero -/

theorem decodeMembers_append {α : Type} (f : α → String → JSON → Except DecodeError α)
    (dst : α) (ms₁ ms₂ : List (String × JSON)) :
    decodeMembers f dst (ms₁ ++ ms₂)
      = (match decodeMembers f dst ms₁ with
        | Except.ok d => decodeMembers f d ms₂
        | Except.error e => Except.error e) := by
  induction ms₁ generalizing dst with
  | nil => simp [decodeMembers]
  | cons kv ms ih =>
    simp only [List.cons_append, decodeMembers]
    cases f dst kv.1 kv.2 with
    | ok d => simpa using ih d
    | error e => rfl

theorem noKeyMatching_iff (ms : List (String × JSON)) (tag : String) :
    (JSON.obj ms).hasKeyMatching tag = false ↔ ∀ kv ∈ ms, matchesTag tag kv.1 = false := by
  simp [JSON.hasKeyMatching, JSON.members]

theorem SubmarineServer_decodeMembers_replicas (ms : List (String × JSON))
    (hk : ∀ kv ∈ ms, matchesTag "replicas" kv.1 = false) (dst : SubmarineServer)
    (r : Option int32) :
    decodeMembers SubmarineServer.setField { dst with Replicas := r } ms
      = (decodeMembers SubmarineServer.setField dst ms).map
          (fun v => { v with Replicas := r }) := by
  induction ms generalizing dst with
  | nil => simp [decodeMembers, Except.map]
  | cons kv ms ih =>
    have h1 : matchesTag "replicas" kv.1 = false := hk kv (List.mem_cons_self _ _)
    have h2 : ∀ x ∈ ms, matchesTag "replicas" x.1 = false :=
      fun x hx => hk x (List.mem_cons_of_mem _ hx)
    simp only [decodeMembers, SubmarineServer.setField, h1, Bool.false_eq_true, if_false]
    by_cases hi : matchesTag "image" kv.1 = true
    · simp only [hi, if_true]
      cases decodeString dst.Image kv.2 with
      | ok s => simpa [Except.map] using ih h2 { dst with Image := s }
      | error e => simp [Except.map]
    · simpa [hi] using ih h2 dst

theorem SubmarineDatabase_decodeMembers_replicas (ms : List (String × JSON))
    (hk : ∀ kv ∈ ms, matchesTag "replicas" kv.1 = false) (dst : SubmarineDatabase)
    (r : Option int32) :
    decodeMembers SubmarineDatabase.setField { dst with Replicas := r } ms
      = (decodeMembers SubmarineDatabase.setField dst ms).map
          (fun v => { v with Replicas := r }) := by
  induction ms generalizing dst with
  | nil => simp [decodeMembers, Except.map]
  | cons kv ms ih =>
    have h1 : matchesTag "replicas" kv.1 = false := hk kv (List.mem_cons_self _ _)
    have h2 : ∀ x ∈ ms, matchesTag "replicas" x.1 = false :=
      fun x hx => hk x (List.mem_cons_of_mem _ hx)
    simp only [decodeMembers, SubmarineDatabase.setField, h1, Bool.false_eq_true, if_false]
    by_cases hi : matchesTag "image" kv.1 = true
    · simp only [hi, if_true]
      cases decodeString dst.Image kv.2 with
      | ok s => simpa [Except.map] using ih h2 { dst with Image := s }
      | error e => simp [Except.map]
    · by_cases hs : matchesTag "storageSize" kv.1 = true
      · simp only [hi, hs, if_true, if_false]
        cases decodeString dst.StorageSize kv.2 with
        | ok s => simpa [Except.map] using ih h2 { dst with StorageSize := s }
        | error e => simp [Except.map]
      · by_cases hm : matchesTag "mysqlRootPasswordSecret" kv.1 = true
        · simp only [hi, hs, hm, if_true, if_false]
          cases decodeString dst.MysqlRootPasswordSecret kv.2 with
          | ok s => simpa [Except.map] using ih h2 { dst with MysqlRootPasswordSecret := s }
          | error e => simp [Except.map]
        · simpa [hi, hs, hm] using ih h2 dst

theorem SubmarineServer_absent_replicas (ms₁ ms₂ : List (String × JSON))
    (hk : (JSON.obj (ms₁ ++ ms₂)).hasKeyMatching "replicas" = false) (v : SubmarineServer)
    (hv : SubmarineServer.decode (JSON.obj (ms₁ ++ ms₂)) = Except.ok v) :
    v.Replicas = none
    ∧ SubmarineServer.decode (JSON.obj (ms₁ ++ ("replicas", JSON.int 0) :: ms₂))
        = Except.ok { v with Replicas := some int32.zero } := by
  rw [noKeyMatching_iff] at hk
  have hk2 : ∀ kv ∈ ms₂, matchesTag "replicas" kv.1 = false :=
    fun kv h => hk kv (List.mem_append_right _ h)
  simp only [SubmarineServer.decode, SubmarineServer.decodeInto, decodeStruct] at hv ⊢
  constructor
  · have h := SubmarineServer_decodeMembers_replicas (ms₁ ++ ms₂) hk SubmarineServer.zero none
    have hz : ({ SubmarineServer.zero with Replicas := none } : SubmarineServer)
        = SubmarineServer.zero := rfl
    rw [hz, hv] at h
    simp only [Except.map, Except.ok.injEq] at h
    rw [h]
  · rw [decodeMembers_append] at hv ⊢
    cases h1 : decodeMembers SubmarineServer.setField SubmarineServer.zero ms₁ with
    | error e => simp [h1] at hv
    | ok d =>
      simp only [h1] at hv
      have h := SubmarineServer_decodeMembers_replicas ms₂ hk2 d (some int32.zero)
      rw [hv] at h
      simpa [decodeMembers, SubmarineServer.setField, decodePtr, decodeInt32, Except.map,
        int32.zero, tag_table] using h

theorem SubmarineDatabase_absent_replicas (ms₁ ms₂ : List (String × JSON))
    (hk : (JSON.obj (ms₁ ++ ms₂)).hasKeyMatching "replicas" = false) (v : SubmarineDatabase)
    (hv : SubmarineDatabase.decode (JSON.obj (ms₁ ++ ms₂)) = Except.ok v) :
    v.Replicas = none
    ∧ SubmarineDatabase.decode (JSON.obj (ms₁ ++ ("replicas", JSON.int 0) :: ms₂))
        = Except.ok { v with Replicas := some int32.zero } := by
  rw [noKeyMatching_iff] at hk
  have hk2 : ∀ kv ∈ ms₂, matchesTag "replicas" kv.1 = false :=
    fun kv h => hk kv (List.mem_append_right _ h)
  simp only [SubmarineDatabase.decode, SubmarineDatabase.decodeInto, decodeStruct] at hv ⊢
  constructor
  · have h := SubmarineDatabase_decodeMembers_replicas (ms₁ ++ ms₂) hk
      SubmarineDatabase.zero none
    have hz : ({ SubmarineDatabase.zero with Replicas := none } : SubmarineDatabase)
        = SubmarineDatabase.zero := rfl
    rw [hz, hv] at h
    simp only [Except.map, Except.ok.injEq] at h
    rw [h]
  · rw [decodeMembers_append] at hv ⊢
    cases h1 : decodeMembers SubmarineDatabase.setField SubmarineDatabase.zero ms₁ with
    | error e => simp [h1] at hv
    | ok d =>
      simp only [h1] at hv
      have h := SubmarineDatabase_decodeMembers_replicas ms₂ hk2 d (some int32.zero)
      rw [hv] at h
      simpa [decodeMembers, SubmarineDatabase.setField, decodePtr, decodeInt32, Except.map,
        int32.zero, tag_table] using h

/-- C5, as stated, fails: the document `{"image":"a","Replicas":5}` has no
`replicas` key, yet it decodes to a server whose `Replicas` is set, to `5`: the
decoder also matches a key that equals the tag name under case folding. -/
theorem capitalised_replicas_is_read :
    (JSON.obj [("image", JSON.str "a"), ("Replicas", JSON.int 5)]).hasKey "replicas" = false
    ∧ SubmarineServer.decode (JSON.obj [("image", JSON.str "a"), ("Replicas", JSON.int 5)])
        = Except.ok ⟨"a", some ⟨5, by decide⟩⟩
    ∧ (⟨"a", some ⟨5, by decide⟩⟩ : SubmarineServer).Replicas ≠ none
    ∧ SubmarineDatabase.decode (JSON.obj [("image", JSON.str "a"), ("REPLICAS", JSON.int 5)])
        = Except.ok ⟨"a", some ⟨5, by decide⟩, "", ""⟩ := by
  refine ⟨rfl, rfl, by decide, rfl⟩

/-- C5, amended: when a `SubmarineServer` (or `SubmarineDatabase`) document none
of whose keys is `replicas`, also not under case folding, decodes to `v`, then
`v.Replicas` is `nil`; the same document with `"replicas":0` added at any place
decodes to `v` with `Replicas` pointing to `0`; and the two decoded values
differ. -/
theorem absent_replicas_is_nil_not_zero (ms₁ ms₂ : List (String × JSON))
    (hk : (JSON.obj (ms₁ ++ ms₂)).hasKeyMatching "replicas" = false) :
    (∀ v, SubmarineServer.decode (JSON.obj (ms₁ ++ ms₂)) = Except.ok v →
      v.Replicas = none
      ∧ SubmarineServer.decode (JSON.obj (ms₁ ++ ("replicas", JSON.int 0) :: ms₂))
          = Except.ok { v with Replicas := some int32.zero }
      ∧ v ≠ { v with Replicas := some int32.zero })
    ∧ (∀ v, SubmarineDatabase.decode (JSON.obj (ms₁ ++ ms₂)) = Except.ok v →
      v.Replicas = none
      ∧ SubmarineDatabase.decode (JSON.obj (ms₁ ++ ("replicas", JSON.int 0) :: ms₂))
          = Except.ok { v with Replicas := some int32.zero }
      ∧ v ≠ { v with Replicas := some int32.zero }) := by
  constructor
  · intro v hv
    obtain ⟨h1, h2⟩ := SubmarineServer_absent_replicas ms₁ ms₂ hk v hv
    refine ⟨h1, h2, ?_⟩
    intro h
    have h3 := congrArg SubmarineServer.Replicas h
    simp [h1] at h3
  · intro v hv
    obtain ⟨h1, h2⟩ := SubmarineDatabase_absent_replicas ms₁ ms₂ hk v hv
    refine ⟨h1, h2, ?_⟩
    intro h
    have h3 := congrArg SubmarineDatabase.Replicas h
    simp [h1] at h3

/-- Witness of C5: the documents `{"Image":"a"}` and `{"Image":"a","replicas":0}`
decode to a server with `Replicas` `nil` and to one with `Replicas` `0`. -/
theorem absent_replicas_is_nil_not_zero_witness :
    (JSON.obj ([("Image", JSON.str "a")] ++ [])).hasKeyMatching "replicas" = false
    ∧ SubmarineServer.decode (JSON.obj ([("Image", JSON.str "a")] ++ []))
        = Except.ok ⟨"a", none⟩
    ∧ (⟨"a", none⟩ : SubmarineServer).Replicas = none
    ∧ SubmarineServer.decode
          (JSON.obj ([("Image", JSON.str "a")] ++ ("replicas", JSON.int 0) :: []))
        = Except.ok { (⟨"a", none⟩ : SubmarineServer) with Replicas := some int32.zero }
    ∧ (⟨"a", none⟩ : SubmarineServer)
        ≠ { (⟨"a", none⟩ : SubmarineServer) with Replicas := some int32.zero } :=
  ⟨rfl, rfl,
    (absent_replicas_is_nil_not_zero [("Image", JSON.str "a")] [] rfl).1 ⟨"a", none⟩ rfl⟩

/-! ### Structural decode errors -/

theorem decodeMembers_error_of_mem {α : Type} (f : α → String → JSON → Except DecodeError α)
    (ms : List (String × JSON)) (kv : String × JSON) (hmem : kv ∈ ms)
    (hbad : ∀ d, ∃ e, f d kv.1 kv.2 = Except.error e) (dst : α) :
    ∃ e, decodeMembers f dst ms = Except.error e := by
  induction ms generalizing dst with
  | nil => simp at hmem
  | cons x ms ih =>
    simp only [decodeMembers]
    cases hx : f dst x.1 x.2 with
    | error e => exact ⟨e, rfl⟩
    | ok d =>
      rcases List.mem_cons.mp hmem with h | h
      · subst h
        obtain ⟨e, he⟩ := hbad dst
        rw [hx] at he
        cases he
      · exact ih h d

theorem decodeStruct_error_of_anyMember {α : Type} (ty : String)
    (f : α → String → JSON → Except DecodeError α) (p : String → JSON → Bool)
    (hp : ∀ k v, p k v = true → ∀ d, ∃ e, f d k v = Except.error e)
    (j : JSON) (hj : anyMember p j = true) (dst : α) :
    ∃ e, decodeStruct ty f dst j = Except.error e := by
  cases j with
  | obj ms =>
    simp only [anyMember, JSON.members, List.any_eq_true] at hj
    obtain ⟨kv, hmem, hkv⟩ := hj
    exact decodeMembers_error_of_mem f ms kv hmem (hp kv.1 kv.2 hkv) dst
  | _ => simp [anyMember, JSON.members] at hj

theorem anyMember_ne_null (p : String → JSON → Bool) (j : JSON) (hj : anyMember p j = true) :
    j ≠ JSON.null := by
  intro h
  subst h
  simp [anyMember, JSON.members] at hj

theorem decodeString_error (v : JSON) (hv : v.notString = true) (dst : GoString) :
    ∃ e, decodeString dst v = Except.error e := by
  cases v <;> simp [JSON.notString, decodeString, typeError] at hv ⊢

theorem decodeInt32_error (v : JSON) (hv : v.notInt32 = true) (dst : int32) :
    ∃ e, decodeInt32 dst v = Except.error e := by
  cases v <;> simp [JSON.notInt32, decodeInt32, typeError] at hv ⊢
  case int i =>
    rw [dif_neg (by omega)]
    exact ⟨_, rfl⟩

theorem decodePtr_error {α : Type} (zero : α) (decodeInto : α → JSON → Except DecodeError α)
    (v : JSON) (hnn : v ≠ JSON.null) (hbad : ∀ d, ∃ e, decodeInto d v = Except.error e)
    (dst : Option α) : ∃ e, decodePtr zero decodeInto dst v = Except.error e := by
  obtain ⟨e, he⟩ := hbad (dst.getD zero)
  cases v <;> simp_all [decodePtr, Except.map]

theorem map_error {α β : Type} (g : α → β) (x : Except DecodeError α)
    (h : ∃ e, x = Except.error e) : ∃ e, x.map g = Except.error e := by
  obtain ⟨e, rfl⟩ := h
  exact ⟨e, rfl⟩

theorem notInt32_ne_null (v : JSON) (hv : v.notInt32 = true) : v ≠ JSON.null := by
  intro h
  subst h
  simp [JSON.notInt32] at hv

theorem SubmarineServer_malformed_fails (j : JSON) (h : SubmarineServer.malformed j = true)
    (dst : SubmarineServer) : ∃ e, SubmarineServer.decodeInto dst j = Except.error e := by
  refine decodeStruct_error_of_anyMember _ _ _ ?_ j h dst
  intro k v hp d
  simp only [Bool.or_eq_true, Bool.and_eq_true, beq_iff_eq] at hp
  rcases hp with ⟨rfl, hv⟩ | ⟨rfl, hv⟩
  · simpa [SubmarineServer.setField, tag_table] using map_error _ _ (decodeString_error v hv d.Image)
  · simpa [SubmarineServer.setField, tag_table] using map_error _ _
      (decodePtr_error int32.zero decodeInt32 v (notInt32_ne_null v hv)
        (decodeInt32_error v hv) d.Replicas)

theorem SubmarineDatabase_malformed_fails (j : JSON) (h : SubmarineDatabase.malformed j = true)
    (dst : SubmarineDatabase) : ∃ e, SubmarineDatabase.decodeInto dst j = Except.error e := by
  refine decodeStruct_error_of_anyMember _ _ _ ?_ j h dst
  intro k v hp d
  simp only [Bool.or_eq_true, Bool.and_eq_true, beq_iff_eq] at hp
  rcases hp with ((⟨rfl, hv⟩ | ⟨rfl, hv⟩) | ⟨rfl, hv⟩) | ⟨rfl, hv⟩
  · simpa [SubmarineDatabase.setField, tag_table] using map_error _ _ (decodeString_error v hv d.Image)
  · simpa [SubmarineDatabase.setField, tag_table] using map_error _ _
      (decodePtr_error int32.zero decodeInt32 v (notInt32_ne_null v hv)
        (decodeInt32_error v hv) d.Replicas)
  · simpa [SubmarineDatabase.setField, tag_table] using
      map_error _ _ (decodeString_error v hv d.StorageSize)
  · simpa [SubmarineDatabase.setField, tag_table] using
      map_error _ _ (decodeString_error v hv d.MysqlRootPasswordSecret)

theorem SubmarineTensorboard_malformed_fails (j : JSON)
    (h : SubmarineTensorboard.malformed j = true) (dst : SubmarineTensorboard) :
    ∃ e, SubmarineTensorboard.decodeInto dst j = Except.error e := by
  refine decodeStruct_error_of_anyMember _ _ _ ?_ j h dst
  intro k v hp d
  simp only [Bool.and_eq_true, beq_iff_eq] at hp
  obtain ⟨rfl, hv⟩ := hp
  simpa [SubmarineTensorboard.setField, tag_table] using
    map_error _ _ (decodeString_error v hv d.StorageSize)

theorem SubmarineMlflow_malformed_fails (j : JSON)
    (h : SubmarineMlflow.malformed j = true) (dst : SubmarineMlflow) :
    ∃ e, SubmarineMlflow.decodeInto dst j = Except.error e := by
  refine decodeStruct_error_of_anyMember _ _ _ ?_ j h dst
  intro k v hp d
  simp only [Bool.and_eq_true, beq_iff_eq] at hp
  obtain ⟨rfl, hv⟩ := hp
  simpa [SubmarineMlflow.setField, tag_table] using
    map_error _ _ (decodeString_error v hv d.StorageSize)

theorem SubmarineMinio_malformed_fails (j : JSON)
    (h : SubmarineMinio.malformed j = true) (dst : SubmarineMinio) :
    ∃ e, SubmarineMinio.decodeInto dst j = Except.error e := by
  refine decodeStruct_error_of_anyMember _ _ _ ?_ j h dst
  intro k v hp d
  simp only [Bool.and_eq_true, beq_iff_eq] at hp
  obtain ⟨rfl, hv⟩ := hp
  simpa [SubmarineMinio.setField, tag_table] using
    map_error _ _ (decodeString_error v hv d.StorageSize)

theorem SubmarineStorage_malformed_fails (j : JSON) (h : SubmarineStorage.malformed j = true)
    (dst : SubmarineStorage) : ∃ e, SubmarineStorage.decodeInto dst j = Except.error e := by
  refine decodeStruct_error_of_anyMember _ _ _ ?_ j h dst
  intro k v hp d
  simp only [Bool.or_eq_true, Bool.and_eq_true, beq_iff_eq] at hp
  rcases hp with ((⟨rfl, hv⟩ | ⟨rfl, hv⟩) | ⟨rfl, hv⟩) | ⟨rfl, hv⟩
  · simpa [SubmarineStorage.setField, tag_table] using
      map_error _ _ (decodeString_error v hv d.StorageType)
  · simpa [SubmarineStorage.setField, tag_table] using map_error _ _ (decodeString_error v hv d.HostPath)
  · simpa [SubmarineStorage.setField, tag_table] using map_error _ _ (decodeString_error v hv d.NfsPath)
  · simpa [SubmarineStorage.setField, tag_table] using map_error _ _ (decodeString_error v hv d.NfsIP)

theorem SubmarineSpec_malformed_fails (j : JSON) (h : SubmarineSpec.malformed j = true)
    (dst : SubmarineSpec) : ∃ e, SubmarineSpec.decodeInto dst j = Except.error e := by
  refine decodeStruct_error_of_anyMember _ _ _ ?_ j h dst
  intro k v hp d
  simp only [Bool.or_eq_true, Bool.and_eq_true, beq_iff_eq] at hp
  rcases hp with (((((⟨rfl, hv⟩ | ⟨rfl, hv⟩) | ⟨rfl, hv⟩) | ⟨rfl, hv⟩) | ⟨rfl, hv⟩)
    | ⟨rfl, hv⟩) | ⟨rfl, hv⟩
  · simpa [SubmarineSpec.setField, tag_table] using map_error _ _ (decodeString_error v hv d.Version)
  · simpa [SubmarineSpec.setField, tag_table] using map_error _ _
      (decodePtr_error SubmarineServer.zero SubmarineServer.decodeInto v
        (anyMember_ne_null _ v hv) (SubmarineServer_malformed_fails v hv) d.Server)
  · simpa [SubmarineSpec.setField, tag_table] using map_error _ _
      (decodePtr_error SubmarineDatabase.zero SubmarineDatabase.decodeInto v
        (anyMember_ne_null _ v hv) (SubmarineDatabase_malformed_fails v hv) d.Database)
  · simpa [SubmarineSpec.setField, tag_table] using map_error _ _
      (decodePtr_error SubmarineTensorboard.zero SubmarineTensorboard.decodeInto v
        (anyMember_ne_null _ v hv) (SubmarineTensorboard_malformed_fails v hv) d.Tensorboard)
  · simpa [SubmarineSpec.setField, tag_table] using map_error _ _
      (decodePtr_error SubmarineMlflow.zero SubmarineMlflow.decodeInto v
        (anyMember_ne_null _ v hv) (SubmarineMlflow_malformed_fails v hv) d.Mlflow)
  · simpa [SubmarineSpec.setField, tag_table] using map_error _ _
      (decodePtr_error SubmarineMinio.zero SubmarineMinio.decodeInto v
        (anyMember_ne_null _ v hv) (SubmarineMinio_malformed_fails v hv) d.Minio)
  · simpa [SubmarineSpec.setField, tag_table] using map_error _ _
      (decodePtr_error SubmarineStorage.zero SubmarineStorage.decodeInto v
        (anyMember_ne_null _ v hv) (SubmarineStorage_malformed_fails v hv) d.Storage)

theorem SubmarineState_malformed_fails (j : JSON) (h : SubmarineState.malformed j = true)
    (dst : SubmarineState) : ∃ e, SubmarineState.decodeInto dst j = Except.error e := by
  refine decodeStruct_error_of_anyMember _ _ _ ?_ j h dst
  intro k v hp d
  simp only [Bool.or_eq_true, Bool.and_eq_true, beq_iff_eq] at hp
  rcases hp with ⟨rfl, hv⟩ | ⟨rfl, hv⟩
  · simpa [SubmarineState.setField, tag_table] using map_error _ _ (decodeString_error v hv d.State)
  · simpa [SubmarineState.setField, tag_table] using
      map_error _ _ (decodeString_error v hv d.ErrorMessage)

theorem SubmarineStatus_malformed_fails (j : JSON) (h : SubmarineStatus.malformed j = true)
    (dst : SubmarineStatus) : ∃ e, SubmarineStatus.decodeInto dst j = Except.error e := by
  refine decodeStruct_error_of_anyMember _ _ _ ?_ j h dst
  intro k v hp d
  simp only [Bool.or_eq_true, Bool.and_eq_true, beq_iff_eq] at hp
  rcases hp with (⟨rfl, hv⟩ | ⟨rfl, hv⟩) | ⟨rfl, hv⟩
  · simpa [SubmarineStatus.setField, tag_table] using
      map_error _ _ (decodeInt32_error v hv d.AvailableServerReplicas)
  · simpa [SubmarineStatus.setField, tag_table] using
      map_error _ _ (decodeInt32_error v hv d.AvailableDatabaseReplicas)
  · simpa [SubmarineStatus.setField, tag_table] using
      map_error _ _ (SubmarineState_malformed_fails v hv d.SubmarineState)

theorem Submarine_malformed_fails {M : Type} (mc : MetaCodec M) (j : JSON)
    (h : Submarine.malformed j = true) (dst : Submarine M) :
    ∃ e, Submarine.decodeInto mc dst j = Except.error e := by
  refine decodeStruct_error_of_anyMember _ _ _ ?_ j h dst
  intro k v hp d
  simp only [Bool.or_eq_true, Bool.and_eq_true, beq_iff_eq] at hp
  rcases hp with ((⟨rfl, hv⟩ | ⟨rfl, hv⟩) | ⟨rfl, hv⟩) | ⟨rfl, hv⟩
  · simpa [Submarine.setField, tag_table] using
      map_error _ _ (decodeString_error v hv d.TypeMeta.Kind)
  · simpa [Submarine.setField, tag_table] using
      map_error _ _ (decodeString_error v hv d.TypeMeta.APIVersion)
  · simpa [Submarine.setField, tag_table] using
      map_error _ _ (SubmarineSpec_malformed_fails v hv d.Spec)
  · simpa [Submarine.setField, tag_table] using
      map_error _ _ (SubmarineStatus_malformed_fails v hv d.Status)

/-- C7, as stated, fails: `null` is not an integer in the `int32` range, yet a
document whose `replicas` (or replica counter) holds `null` decodes without
error. -/
theorem null_replicas_is_accepted :
    (∀ i : Int, JSON.null ≠ JSON.int i)
    ∧ SubmarineServer.decode (JSON.obj [("image", JSON.str "a"), ("replicas", JSON.null)])
        = Except.ok ⟨"a", none⟩
    ∧ SubmarineStatus.decode (JSON.obj [("availableServerReplicas", JSON.null)])
        = Except.ok SubmarineStatus.zero := by
  refine ⟨fun i h => JSON.noConfusion h, rfl, rfl⟩

/-- C7, amended: decoding fails with an error, and yields no value, for every
document in which a string field holds a number, a boolean, an object or an
array, and for every document in which `replicas` or a replica counter holds a
value other than `null` that is not an integer in the `int32` range; also when
the offending member sits in a nested sub-spec, state, spec or status. -/
theorem malformed_document_fails (j : JSON) :
    (SubmarineSpec.malformed j = true → ∃ e, SubmarineSpec.decode j = Except.error e)
    ∧ (SubmarineStatus.malformed j = true → ∃ e, SubmarineStatus.decode j = Except.error e)
    ∧ (SubmarineState.malformed j = true → ∃ e, SubmarineState.decode j = Except.error e)
    ∧ (SubmarineServer.malformed j = true → ∃ e, SubmarineServer.decode j = Except.error e)
    ∧ (SubmarineDatabase.malformed j = true →
        ∃ e, SubmarineDatabase.decode j = Except.error e)
    ∧ (SubmarineTensorboard.malformed j = true →
        ∃ e, SubmarineTensorboard.decode j = Except.error e)
    ∧ (SubmarineMlflow.malformed j = true → ∃ e, SubmarineMlflow.decode j = Except.error e)
    ∧ (SubmarineMinio.malformed j = true → ∃ e, SubmarineMinio.decode j = Except.error e)
    ∧ (SubmarineStorage.malformed j = true → ∃ e, SubmarineStorage.decode j = Except.error e)
    ∧ (∀ (M : Type) (mc : MetaCodec M), Submarine.malformed j = true →
        ∃ e, Submarine.decode mc j = Except.error e)
    ∧ (∀ (i : Int) (lit : String) (b : Bool) (xs : List JSON) (ms : List (String × JSON)),
        (JSON.int i).notString = true ∧ (JSON.real lit).notString = true
        ∧ (JSON.bool b).notString = true ∧ (JSON.arr xs).notString = true
        ∧ (JSON.obj ms).notString = true)
    ∧ (∀ (i : Int) (lit s : String) (b : Bool) (xs : List JSON) (ms : List (String × JSON)),
        ((JSON.int i).notInt32 = true ↔ ¬ (-2147483648 ≤ i ∧ i ≤ 2147483647))
        ∧ (JSON.real lit).notInt32 = true ∧ (JSON.str s).notInt32 = true
        ∧ (JSON.bool b).notInt32 = true ∧ (JSON.arr xs).notInt32 = true
        ∧ (JSON.obj ms).notInt32 = true) := by
  refine ⟨fun h => SubmarineSpec_malformed_fails j h _,
    fun h => SubmarineStatus_malformed_fails j h _,
    fun h => SubmarineState_malformed_fails j h _,
    fun h => SubmarineServer_malformed_fails j h _,
    fun h => SubmarineDatabase_malformed_fails j h _,
    fun h => SubmarineTensorboard_malformed_fails j h _,
    fun h => SubmarineMlflow_malformed_fails j h _,
    fun h => SubmarineMinio_malformed_fails j h _,
    fun h => SubmarineStorage_malformed_fails j h _,
    fun M mc h => Submarine_malformed_fails mc j h _, ?_, ?_⟩
  · intro i lit b xs ms
    simp [JSON.notString]
  · intro i lit s b xs ms
    simp only [JSON.notInt32, Bool.not_eq_true', decide_eq_false_iff_not, and_self, and_true]

/-- Witness of C7: the spec document `{"version":7,"server":{"image":"a","replicas":1.5}}`
is malformed and its decoding fails. -/
theorem malformed_document_fails_witness :
    SubmarineSpec.malformed (JSON.obj [("version", JSON.int 7),
        ("server", JSON.obj [("image", JSON.str "a"), ("replicas", JSON.real "1.5")])]) = true
    ∧ ∃ e, SubmarineSpec.decode (JSON.obj [("version", JSON.int 7),
        ("server", JSON.obj [("image", JSON.str "a"), ("replicas", JSON.real "1.5")])])
          = Except.error e :=
  ⟨rfl, (malformed_document_fails _).1 rfl⟩


/-! ### No semantic validation -/

theorem decodeMembers_ok {α : Type} (f : α → String → JSON → Except DecodeError α)
    (ms : List (String × JSON)) (hok : ∀ kv ∈ ms, ∀ d, ∃ x, f d kv.1 kv.2 = Except.ok x)
    (dst : α) : ∃ v, decodeMembers f dst ms = Except.ok v := by
  induction ms generalizing dst with
  | nil => exact ⟨dst, rfl⟩
  | cons x ms ih =>
    obtain ⟨d, hd⟩ := hok x (List.mem_cons_self _ _) dst
    simp only [decodeMembers, hd]
    exact ih (fun kv h => hok kv (List.mem_cons_of_mem _ h)) d

theorem decodeStruct_ok_of_allMembers {α : Type} (ty : String)
    (f : α → String → JSON → Except DecodeError α) (p : String → JSON → Bool)
    (hp : ∀ k v, p k v = true → ∀ d, ∃ x, f d k v = Except.ok x)
    (j : JSON) (hj : allMembers p j = true) (dst : α) :
    ∃ v, decodeStruct ty f dst j = Except.ok v := by
  cases j with
  | obj ms =>
    simp only [allMembers, List.all_eq_true] at hj
    exact decodeMembers_ok f ms (fun kv h => hp kv.1 kv.2 (hj kv h)) dst
  | _ => simp [allMembers] at hj

theorem decodeString_ok (v : JSON) (hv : v.isString = true) (dst : GoString) :
    ∃ x, decodeString dst v = Except.ok x := by
  cases v <;> simp [JSON.isString, decodeString] at hv ⊢

theorem decodeInt32_ok (v : JSON) (hv : v.isInt32 = true) (dst : int32) :
    ∃ x, decodeInt32 dst v = Except.ok x := by
  cases v <;> simp [JSON.isInt32, decodeInt32] at hv ⊢
  case int i =>
    rw [dif_pos hv]
    exact ⟨i, hv, rfl⟩

theorem decodeBool_ok (v : JSON) (hv : v.isBool = true) (dst : Bool) :
    ∃ x, decodeBool dst v = Except.ok x := by
  cases v <;> simp [JSON.isBool, decodeBool] at hv ⊢

theorem decodePtr_ok {α : Type} (zero : α) (decodeInto : α → JSON → Except DecodeError α)
    (p : JSON → Bool) (v : JSON) (hv : nullOr p v = true)
    (hok : p v = true → ∀ d, ∃ x, decodeInto d v = Except.ok x) (dst : Option α) :
    ∃ x, decodePtr zero decodeInto dst v = Except.ok x := by
  cases v with
  | null => exact ⟨none, rfl⟩
  | _ =>
    obtain ⟨x, hx⟩ := hok (by simpa [nullOr] using hv) (dst.getD zero)
    simp [decodePtr, Except.map, hx]

theorem map_ok {α β : Type} (g : α → β) (x : Except DecodeError α)
    (h : ∃ a, x = Except.ok a) : ∃ b, x.map g = Except.ok b := by
  obtain ⟨a, rfl⟩ := h
  exact ⟨g a, rfl⟩

theorem SubmarineServer_conforms_ok (j : JSON) (h : SubmarineServer.conforms j = true)
    (dst : SubmarineServer) : ∃ v, SubmarineServer.decodeInto dst j = Except.ok v := by
  refine decodeStruct_ok_of_allMembers _ _ _ ?_ j h dst
  intro k v hp d
  unfold SubmarineServer.setField
  split_ifs at hp ⊢
  · exact map_ok _ _ (decodeString_ok v hp _)
  · exact map_ok _ _ (decodePtr_ok _ _ _ v hp (fun h => decodeInt32_ok v h) _)
  · exact ⟨d, rfl⟩

theorem SubmarineDatabase_conforms_ok (j : JSON) (h : SubmarineDatabase.conforms j = true)
    (dst : SubmarineDatabase) : ∃ v, SubmarineDatabase.decodeInto dst j = Except.ok v := by
  refine decodeStruct_ok_of_allMembers _ _ _ ?_ j h dst
  intro k v hp d
  unfold SubmarineDatabase.setField
  split_ifs at hp ⊢
  · exact map_ok _ _ (decodeString_ok v hp _)
  · exact map_ok _ _ (decodePtr_ok _ _ _ v hp (fun h => decodeInt32_ok v h) _)
  · exact map_ok _ _ (decodeString_ok v hp _)
  · exact map_ok _ _ (decodeString_ok v hp _)
  · exact ⟨d, rfl⟩

theorem SubmarineTensorboard_conforms_ok (j : JSON)
    (h : SubmarineTensorboard.conforms j = true) (dst : SubmarineTensorboard) :
    ∃ v, SubmarineTensorboard.decodeInto dst j = Except.ok v := by
  refine decodeStruct_ok_of_allMembers _ _ _ ?_ j h dst
  intro k v hp d
  unfold SubmarineTensorboard.setField
  split_ifs at hp ⊢
  · exact map_ok _ _ (decodePtr_ok _ _ _ v hp (fun h => decodeBool_ok v h) _)
  · exact map_ok _ _ (decodeString_ok v hp _)
  · exact ⟨d, rfl⟩

theorem SubmarineMlflow_conforms_ok (j : JSON)
    (h : SubmarineMlflow.conforms j = true) (dst : SubmarineMlflow) :
    ∃ v, SubmarineMlflow.decodeInto dst j = Except.ok v := by
  refine decodeStruct_ok_of_allMembers _ _ _ ?_ j h dst
  intro k v hp d
  unfold SubmarineMlflow.setField
  split_ifs at hp ⊢
  · exact map_ok _ _ (decodePtr_ok _ _ _ v hp (fun h => decodeBool_ok v h) _)
  · exact map_ok _ _ (decodeString_ok v hp _)
  · exact ⟨d, rfl⟩

theorem SubmarineMinio_conforms_ok (j : JSON)
    (h : SubmarineMinio.conforms j = true) (dst : SubmarineMinio) :
    ∃ v, SubmarineMinio.decodeInto dst j = Except.ok v := by
  refine decodeStruct_ok_of_allMembers _ _ _ ?_ j h dst
  intro k v hp d
  unfold SubmarineMinio.setField
  split_ifs at hp ⊢
  · exact map_ok _ _ (decodePtr_ok _ _ _ v hp (fun h => decodeBool_ok v h) _)
  · exact map_ok _ _ (decodeString_ok v hp _)
  · exact ⟨d, rfl⟩

theorem SubmarineStorage_conforms_ok (j : JSON) (h : SubmarineStorage.conforms j = true)
    (dst : SubmarineStorage) : ∃ v, SubmarineStorage.decodeInto dst j = Except.ok v := by
  refine decodeStruct_ok_of_allMembers _ _ _ ?_ j h dst
  intro k v hp d
  unfold SubmarineStorage.setField
  split_ifs at hp ⊢
  · exact map_ok _ _ (decodeString_ok v hp _)
  · exact map_ok _ _ (decodeString_ok v hp _)
  · exact map_ok _ _ (decodeString_ok v hp _)
  · exact map_ok _ _ (decodeString_ok v hp _)
  · exact ⟨d, rfl⟩

theorem SubmarineSpec_conforms_ok (j : JSON) (h : SubmarineSpec.conforms j = true)
    (dst : SubmarineSpec) : ∃ v, SubmarineSpec.decodeInto dst j = Except.ok v := by
  refine decodeStruct_ok_of_allMembers _ _ _ ?_ j h dst
  intro k v hp d
  unfold SubmarineSpec.setField
  split_ifs at hp ⊢
  · exact map_ok _ _ (decodeString_ok v hp _)
  · exact map_ok _ _ (decodePtr_ok _ _ _ v hp (fun h => SubmarineServer_conforms_ok v h) _)
  · exact map_ok _ _ (decodePtr_ok _ _ _ v hp (fun h => SubmarineDatabase_conforms_ok v h) _)
  · exact map_ok _ _
      (decodePtr_ok _ _ _ v hp (fun h => SubmarineTensorboard_conforms_ok v h) _)
  · exact map_ok _ _ (decodePtr_ok _ _ _ v hp (fun h => SubmarineMlflow_conforms_ok v h) _)
  · exact map_ok _ _ (decodePtr_ok _ _ _ v hp (fun h => SubmarineMinio_conforms_ok v h) _)
  · exact map_ok _ _ (decodePtr_ok _ _ _ v hp (fun h => SubmarineStorage_conforms_ok v h) _)
  · exact ⟨d, rfl⟩

theorem SubmarineState_conforms_ok (j : JSON) (h : SubmarineState.conforms j = true)
    (dst : SubmarineState) : ∃ v, SubmarineState.decodeInto dst j = Except.ok v := by
  refine decodeStruct_ok_of_allMembers _ _ _ ?_ j h dst
  intro k v hp d
  unfold SubmarineState.setField
  split_ifs at hp ⊢
  · exact map_ok _ _ (decodeString_ok v hp _)
  · exact map_ok _ _ (decodeString_ok v hp _)
  · exact ⟨d, rfl⟩

theorem SubmarineStatus_conforms_ok (j : JSON) (h : SubmarineStatus.conforms j = true)
    (dst : SubmarineStatus) : ∃ v, SubmarineStatus.decodeInto dst j = Except.ok v := by
  refine decodeStruct_ok_of_allMembers _ _ _ ?_ j h dst
  intro k v hp d
  unfold SubmarineStatus.setField
  split_ifs at hp ⊢
  · exact map_ok _ _ (decodeInt32_ok v hp _)
  · exact map_ok _ _ (decodeInt32_ok v hp _)
  · exact map_ok _ _ (SubmarineState_conforms_ok v hp _)
  · exact ⟨d, rfl⟩

/-- C9: decoding validates nothing beyond the declared JSON types: every
document that is an object whose members have the declared types (nullable
members may be `null`, other keys may hold anything) decodes to a value; in
particular a negative `replicas`, any `storageType` with any host path, NFS path
and NFS address, any `storageSize` string, and an error message paired with any
state are all decoded as they stand. -/
theorem decode_has_no_semantic_validation (j : JSON) :
    (SubmarineSpec.conforms j = true → ∃ v, SubmarineSpec.decode j = Except.ok v)
    ∧ (SubmarineStatus.conforms j = true → ∃ v, SubmarineStatus.decode j = Except.ok v)
    ∧ (SubmarineState.conforms j = true → ∃ v, SubmarineState.decode j = Except.ok v)
    ∧ (SubmarineServer.conforms j = true → ∃ v, SubmarineServer.decode j = Except.ok v)
    ∧ (SubmarineDatabase.conforms j = true → ∃ v, SubmarineDatabase.decode j = Except.ok v)
    ∧ (SubmarineTensorboard.conforms j = true →
        ∃ v, SubmarineTensorboard.decode j = Except.ok v)
    ∧ (SubmarineMlflow.conforms j = true → ∃ v, SubmarineMlflow.decode j = Except.ok v)
    ∧ (SubmarineMinio.conforms j = true → ∃ v, SubmarineMinio.decode j = Except.ok v)
    ∧ (SubmarineStorage.conforms j = true → ∃ v, SubmarineStorage.decode j = Except.ok v)
    ∧ (∀ (image : String) (n : int32),
        SubmarineServer.decode (JSON.obj [("image", JSON.str image), ("replicas", JSON.int n.val)])
          = Except.ok ⟨image, some n⟩)
    ∧ SubmarineServer.decode (JSON.obj [("image", JSON.str "a"), ("replicas", JSON.int (-3))])
        = Except.ok ⟨"a", some ⟨-3, by decide⟩⟩
    ∧ (∀ storageType hostPath nfsPath nfsIP : String,
        SubmarineStorage.decode (JSON.obj [("storageType", JSON.str storageType),
            ("hostPath", JSON.str hostPath), ("nfsPath", JSON.str nfsPath),
            ("nfsIP", JSON.str nfsIP)])
          = Except.ok ⟨storageType, hostPath, nfsPath, nfsIP⟩)
    ∧ (∀ size : String,
        SubmarineTensorboard.decode (JSON.obj [("storageSize", JSON.str size)])
          = Except.ok ⟨none, size⟩
        ∧ SubmarineDatabase.decode (JSON.obj [("storageSize", JSON.str size)])
          = Except.ok ⟨"", none, size, ""⟩)
    ∧ (∀ state message : String,
        SubmarineState.decode
            (JSON.obj [("state", JSON.str state), ("errorMessage", JSON.str message)])
          = Except.ok ⟨state, message⟩) := by
  refine ⟨fun h => SubmarineSpec_conforms_ok j h _,
    fun h => SubmarineStatus_conforms_ok j h _,
    fun h => SubmarineState_conforms_ok j h _,
    fun h => SubmarineServer_conforms_ok j h _,
    fun h => SubmarineDatabase_conforms_ok j h _,
    fun h => SubmarineTensorboard_conforms_ok j h _,
    fun h => SubmarineMlflow_conforms_ok j h _,
    fun h => SubmarineMinio_conforms_ok j h _,
    fun h => SubmarineStorage_conforms_ok j h _, ?_, rfl, ?_, ?_, ?_⟩
  · intro image n
    obtain ⟨i, hi⟩ := n
    simp [SubmarineServer.decode, SubmarineServer.decodeInto, SubmarineServer.setField,
      SubmarineServer.zero, decodeStruct, decodeMembers, decodeString, decodePtr, decodeInt32,
      Except.map, hi, tag_table]
  · intro a b c d
    simp [SubmarineStorage.decode, SubmarineStorage.decodeInto, SubmarineStorage.setField,
      SubmarineStorage.zero, decodeStruct, decodeMembers, decodeString, Except.map, tag_table]
  · intro size
    simp [SubmarineTensorboard.decode, SubmarineTensorboard.decodeInto,
      SubmarineTensorboard.setField, SubmarineTensorboard.zero, SubmarineDatabase.decode,
      SubmarineDatabase.decodeInto, SubmarineDatabase.setField, SubmarineDatabase.zero,
      decodeStruct, decodeMembers, decodeString, Except.map, tag_table, ofText_empty]
  · intro st msg
    simp [SubmarineState.decode, SubmarineState.decodeInto, SubmarineState.setField,
      SubmarineState.zero, decodeStruct, decodeMembers, decodeString, Except.map, tag_table]

/-- Witness of C9: a spec document with a negative replica count, an unknown
storage type with every path set, and a storage size that is no quantity has
the declared types, and decodes. -/
theorem decode_has_no_semantic_validation_witness :
    SubmarineSpec.conforms (JSON.obj [("version", JSON.str "not-a-version"),
        ("server", JSON.obj [("image", JSON.str ""), ("replicas", JSON.int (-5))]),
        ("tensorboard", JSON.obj [("enabled", JSON.null), ("storageSize", JSON.str "lots")]),
        ("storage", JSON.obj [("storageType", JSON.str "floppy"), ("hostPath", JSON.str "/a"),
          ("nfsPath", JSON.str "/b"), ("nfsIP", JSON.str "not an address")])]) = true
    ∧ ∃ v, SubmarineSpec.decode (JSON.obj [("version", JSON.str "not-a-version"),
        ("server", JSON.obj [("image", JSON.str ""), ("replicas", JSON.int (-5))]),
        ("tensorboard", JSON.obj [("enabled", JSON.null), ("storageSize", JSON.str "lots")]),
        ("storage", JSON.obj [("storageType", JSON.str "floppy"), ("hostPath", JSON.str "/a"),
          ("nfsPath", JSON.str "/b"), ("nfsIP", JSON.str "not an address")])])
        = Except.ok v :=
  ⟨rfl, (decode_has_no_semantic_validation _).1 rfl⟩


/-! ### Clone shares nothing -/

namespace Mem

theorem extends_refl {M : Type} (H : Heap M) : Extends H H := ⟨[], by simp⟩

theorem extends_trans {M : Type} {H₁ H₂ H₃ : Heap M} (h₁ : Extends H₁ H₂)
    (h₂ : Extends H₂ H₃) : Extends H₁ H₃ := by
  obtain ⟨e₁, rfl⟩ := h₁
  obtain ⟨e₂, rfl⟩ := h₂
  exact ⟨e₁ ++ e₂, by simp⟩

theorem extends_length {M : Type} {H H' : Heap M} (h : Extends H H') :
    H.length ≤ H'.length := by
  obtain ⟨e, rfl⟩ := h
  simp

theorem extends_snoc {M : Type} (H : Heap M) (c : Cell M) : Extends H (H ++ [c]) := ⟨[c], rfl⟩

theorem get_lt {M : Type} {H : Heap M} {a : Addr} {c : Cell M} (h : H[a]? = some c) :
    a < H.length := by
  obtain ⟨hlt, _⟩ := List.getElem?_eq_some.mp h
  exact hlt

theorem get_extends {M : Type} {H H' : Heap M} {a : Addr} {c : Cell M}
    (h : H[a]? = some c) (hext : Extends H H') : H'[a]? = some c := by
  obtain ⟨e, rfl⟩ := hext
  rw [List.getElem?_append_left (get_lt h)]
  exact h

theorem extends_set {M : Type} {H H' : Heap M} (hext : Extends H H') (a : Addr)
    (ha : H.length ≤ a) (c : Cell M) : Extends H (H'.set a c) := by
  obtain ⟨e, rfl⟩ := hext
  exact ⟨e.set (a - H.length) c, List.set_append_right a c ha⟩

theorem stable_scalar {M T : Type} :
    Stable (loadScalar : Heap M → T → Option T) reachScalar := by
  intro H t x hx
  refine ⟨by simp [reachScalar], ?_⟩
  intro H' _
  exact ⟨hx, rfl⟩

theorem fresh_scalar {M T : Type} :
    FreshCopy (loadScalar : Heap M → T → Option T) reachScalar cloneScalar := by
  intro H t x hx
  exact ⟨H, t, rfl, extends_refl H, hx, by simp [reachScalar]⟩

theorem stable_ptr {M T V : Type} (get : Cell M → Option T)
    (loadT : Heap M → T → Option V) (reachT : Heap M → T → List Addr)
    (hS : Stable loadT reachT) : Stable (loadPtr get loadT) (reachPtr get reachT) := by
  intro H p x hx
  cases p with
  | none =>
    refine ⟨by simp [reachPtr], ?_⟩
    intro H' _
    exact ⟨by simpa [loadPtr] using hx, by simp [reachPtr]⟩
  | some a =>
    simp only [loadPtr, Option.bind_eq_some, Option.map_eq_some'] at hx
    obtain ⟨c, hc, t, ht, v, hv, rfl⟩ := hx
    obtain ⟨hb, hst⟩ := hS H t v hv
    constructor
    · intro b hmem
      simp only [reachPtr, hc, ht, Option.some_bind, List.mem_cons] at hmem
      rcases hmem with rfl | hmem
      · exact get_lt hc
      · exact hb b hmem
    · intro H' hext
      obtain ⟨hl, hr⟩ := hst H' hext
      simp [loadPtr, reachPtr, hc, get_extends hc hext, ht, hl, hr]

theorem fresh_ptr {M T V : Type} (get : Cell M → Option T) (mk : T → Cell M)
    (loadT : Heap M → T → Option V) (reachT : Heap M → T → List Addr)
    (cloneT : Heap M → T → Option (Heap M × T)) (hget : ∀ t, get (mk t) = some t)
    (hS : Stable loadT reachT) (hF : FreshCopy loadT reachT cloneT) :
    FreshCopy (loadPtr get loadT) (reachPtr get reachT) (clonePtr get mk cloneT) := by
  intro H p x hx
  cases p with
  | none =>
    exact ⟨H, none, rfl, extends_refl H, hx, by simp [reachPtr]⟩
  | some a =>
    simp only [loadPtr, Option.bind_eq_some, Option.map_eq_some'] at hx
    obtain ⟨c, hc, t, ht, v, hv, rfl⟩ := hx
    obtain ⟨H₁, t₁, hcl, hext, hl, hr⟩ := hF H t v hv
    obtain ⟨_, hst⟩ := hS H₁ t₁ v hl
    obtain ⟨hl', hr'⟩ := hst (H₁ ++ [mk t₁]) (extends_snoc H₁ (mk t₁))
    have hnew : (H₁ ++ [mk t₁])[H₁.length]? = some (mk t₁) :=
      List.getElem?_concat_length H₁ (mk t₁)
    refine ⟨H₁ ++ [mk t₁], some H₁.length, ?_, extends_trans hext (extends_snoc _ _), ?_, ?_⟩
    · simp [clonePtr, hc, ht, hcl]
    · simp [loadPtr, hnew, hget, hl']
    · intro b hmem
      simp only [reachPtr, hnew, hget, Option.some_bind, List.mem_cons, hr'] at hmem
      have hlen := extends_length hext
      rcases hmem with rfl | hmem
      · simp only [List.length_append, List.length_singleton]
        exact ⟨hlen, Nat.lt_succ_self _⟩
      · obtain ⟨h1, h2⟩ := hr b hmem
        simp only [List.length_append, List.length_singleton]
        exact ⟨h1, Nat.lt_succ_of_lt h2⟩

end Mem

namespace Mem

theorem stable_field {M T P V W : Type} (proj : T → P) (build : T → V → W)
    (loadP : Heap M → P → Option V) (reachP : Heap M → P → List Addr)
    (hS : Stable loadP reachP) :
    Stable (fun H t => (loadP H (proj t)).map (build t)) (fun H t => reachP H (proj t)) := by
  intro H t x hx
  simp only [Option.map_eq_some'] at hx
  obtain ⟨v, hv, rfl⟩ := hx
  obtain ⟨hb, hst⟩ := hS H (proj t) v hv
  refine ⟨hb, ?_⟩
  intro H' hext
  obtain ⟨hl, hr⟩ := hst H' hext
  exact ⟨by simp [hl], hr⟩

theorem fresh_field {M T P V W : Type} (proj : T → P) (inj : T → P → T) (build : T → V → W)
    (loadP : Heap M → P → Option V) (reachP : Heap M → P → List Addr)
    (cloneP : Heap M → P → Option (Heap M × P))
    (hproj : ∀ t p, proj (inj t p) = p) (hbuild : ∀ t p, build (inj t p) = build t)
    (hF : FreshCopy loadP reachP cloneP) :
    FreshCopy (fun H t => (loadP H (proj t)).map (build t)) (fun H t => reachP H (proj t))
      (fun H t => (cloneP H (proj t)).map fun r => (r.1, inj t r.2)) := by
  intro H t x hx
  simp only [Option.map_eq_some'] at hx
  obtain ⟨v, hv, rfl⟩ := hx
  obtain ⟨H₁, p₁, hcl, hext, hl, hr⟩ := hF H (proj t) v hv
  refine ⟨H₁, inj t p₁, by simp [hcl], hext, by simp [hproj, hbuild, hl], ?_⟩
  simpa [hproj] using hr

theorem lift_copy {M T V : Type} {load : Heap M → T → Option V}
    {reach : Heap M → T → List Addr} (hS : Stable load reach) {H Hp Hc Hf : Heap M} {t : T}
    {x : V} (e0 : Extends H Hp) (ef : Extends Hc Hf) (l : load Hc t = some x)
    (r : ∀ a ∈ reach Hc t, Hp.length ≤ a ∧ a < Hc.length) :
    load Hf t = some x ∧ ∀ a ∈ reach Hf t, H.length ≤ a ∧ a < Hf.length := by
  obtain ⟨_, hst⟩ := hS Hc t x l
  obtain ⟨hl, hr⟩ := hst Hf ef
  refine ⟨hl, ?_⟩
  intro a ha
  rw [hr] at ha
  obtain ⟨h1, h2⟩ := r a ha
  exact ⟨Nat.le_trans (extends_length e0) h1, Nat.lt_of_lt_of_le h2 (extends_length ef)⟩

theorem server_stable {M : Type} :
    Stable (SubmarineServer.load : Heap M → _ → _) SubmarineServer.reach :=
  stable_field (fun s : SubmarineServer => s.Replicas) (fun (s : SubmarineServer) (r : Option V1alpha1.int32) =>
      (⟨s.Image, r⟩ : V1alpha1.SubmarineServer)) _ _
    (stable_ptr Cell.asInt32 loadScalar reachScalar stable_scalar)

theorem server_fresh {M : Type} :
    FreshCopy (SubmarineServer.load : Heap M → _ → _) SubmarineServer.reach
      SubmarineServer.clone :=
  fresh_field (fun s : SubmarineServer => s.Replicas) (fun s r => { s with Replicas := r })
    (fun (s : SubmarineServer) (r : Option V1alpha1.int32) =>
      (⟨s.Image, r⟩ : V1alpha1.SubmarineServer)) _ _ _ (fun _ _ => rfl) (fun _ _ => rfl)
    (fresh_ptr Cell.asInt32 Cell.int32 loadScalar reachScalar cloneScalar (fun _ => rfl)
      stable_scalar fresh_scalar)

theorem database_stable {M : Type} :
    Stable (SubmarineDatabase.load : Heap M → _ → _) SubmarineDatabase.reach :=
  stable_field (fun s : SubmarineDatabase => s.Replicas)
    (fun (s : SubmarineDatabase) (r : Option V1alpha1.int32) =>
      (⟨s.Image, r, s.StorageSize, s.MysqlRootPasswordSecret⟩ : V1alpha1.SubmarineDatabase)) _ _
    (stable_ptr Cell.asInt32 loadScalar reachScalar stable_scalar)

theorem database_fresh {M : Type} :
    FreshCopy (SubmarineDatabase.load : Heap M → _ → _) SubmarineDatabase.reach
      SubmarineDatabase.clone :=
  fresh_field (fun s : SubmarineDatabase => s.Replicas) (fun s r => { s with Replicas := r })
    (fun (s : SubmarineDatabase) (r : Option V1alpha1.int32) =>
      (⟨s.Image, r, s.StorageSize, s.MysqlRootPasswordSecret⟩ : V1alpha1.SubmarineDatabase)) _ _ _
    (fun _ _ => rfl) (fun _ _ => rfl)
    (fresh_ptr Cell.asInt32 Cell.int32 loadScalar reachScalar cloneScalar (fun _ => rfl)
      stable_scalar fresh_scalar)

theorem tensorboard_stable {M : Type} :
    Stable (SubmarineTensorboard.load : Heap M → _ → _) SubmarineTensorboard.reach :=
  stable_field (fun s : SubmarineTensorboard => s.Enabled) (fun (s : SubmarineTensorboard) (r : Option Bool) =>
      (⟨r, s.StorageSize⟩ : V1alpha1.SubmarineTensorboard)) _ _
    (stable_ptr Cell.asBool loadScalar reachScalar stable_scalar)

theorem tensorboard_fresh {M : Type} :
    FreshCopy (SubmarineTensorboard.load : Heap M → _ → _) SubmarineTensorboard.reach
      SubmarineTensorboard.clone :=
  fresh_field (fun s : SubmarineTensorboard => s.Enabled) (fun s r => { s with Enabled := r })
    (fun (s : SubmarineTensorboard) (r : Option Bool) =>
      (⟨r, s.StorageSize⟩ : V1alpha1.SubmarineTensorboard)) _ _ _ (fun _ _ => rfl) (fun _ _ => rfl)
    (fresh_ptr Cell.asBool Cell.bool loadScalar reachScalar cloneScalar (fun _ => rfl)
      stable_scalar fresh_scalar)

theorem mlflow_stable {M : Type} :
    Stable (SubmarineMlflow.load : Heap M → _ → _) SubmarineMlflow.reach :=
  stable_field (fun s : SubmarineMlflow => s.Enabled) (fun (s : SubmarineMlflow) (r : Option Bool) =>
      (⟨r, s.StorageSize⟩ : V1alpha1.SubmarineMlflow)) _ _
    (stable_ptr Cell.asBool loadScalar reachScalar stable_scalar)

theorem mlflow_fresh {M : Type} :
    FreshCopy (SubmarineMlflow.load : Heap M → _ → _) SubmarineMlflow.reach
      SubmarineMlflow.clone :=
  fresh_field (fun s : SubmarineMlflow => s.Enabled) (fun s r => { s with Enabled := r })
    (fun (s : SubmarineMlflow) (r : Option Bool) =>
      (⟨r, s.StorageSize⟩ : V1alpha1.SubmarineMlflow)) _ _ _ (fun _ _ => rfl) (fun _ _ => rfl)
    (fresh_ptr Cell.asBool Cell.bool loadScalar reachScalar cloneScalar (fun _ => rfl)
      stable_scalar fresh_scalar)

theorem minio_stable {M : Type} :
    Stable (SubmarineMinio.load : Heap M → _ → _) SubmarineMinio.reach :=
  stable_field (fun s : SubmarineMinio => s.Enabled) (fun (s : SubmarineMinio) (r : Option Bool) =>
      (⟨r, s.StorageSize⟩ : V1alpha1.SubmarineMinio)) _ _
    (stable_ptr Cell.asBool loadScalar reachScalar stable_scalar)

theorem minio_fresh {M : Type} :
    FreshCopy (SubmarineMinio.load : Heap M → _ → _) SubmarineMinio.reach
      SubmarineMinio.clone :=
  fresh_field (fun s : SubmarineMinio => s.Enabled) (fun s r => { s with Enabled := r })
    (fun (s : SubmarineMinio) (r : Option Bool) =>
      (⟨r, s.StorageSize⟩ : V1alpha1.SubmarineMinio)) _ _ _ (fun _ _ => rfl) (fun _ _ => rfl)
    (fresh_ptr Cell.asBool Cell.bool loadScalar reachScalar cloneScalar (fun _ => rfl)
      stable_scalar fresh_scalar)

end Mem

namespace Mem

theorem serverPtr_stable {M : Type} :
    Stable (loadPtr (Cell.asServer : Cell M → _) SubmarineServer.load)
      (reachPtr Cell.asServer SubmarineServer.reach) :=
  stable_ptr _ _ _ server_stable

theorem serverPtr_fresh {M : Type} :
    FreshCopy (loadPtr (Cell.asServer : Cell M → _) SubmarineServer.load)
      (reachPtr Cell.asServer SubmarineServer.reach)
      (clonePtr Cell.asServer Cell.server SubmarineServer.clone) :=
  fresh_ptr _ _ _ _ _ (fun _ => rfl) server_stable server_fresh

theorem databasePtr_stable {M : Type} :
    Stable (loadPtr (Cell.asDatabase : Cell M → _) SubmarineDatabase.load)
      (reachPtr Cell.asDatabase SubmarineDatabase.reach) :=
  stable_ptr _ _ _ database_stable

theorem databasePtr_fresh {M : Type} :
    FreshCopy (loadPtr (Cell.asDatabase : Cell M → _) SubmarineDatabase.load)
      (reachPtr Cell.asDatabase SubmarineDatabase.reach)
      (clonePtr Cell.asDatabase Cell.database SubmarineDatabase.clone) :=
  fresh_ptr _ _ _ _ _ (fun _ => rfl) database_stable database_fresh

theorem tensorboardPtr_stable {M : Type} :
    Stable (loadPtr (Cell.asTensorboard : Cell M → _) SubmarineTensorboard.load)
      (reachPtr Cell.asTensorboard SubmarineTensorboard.reach) :=
  stable_ptr _ _ _ tensorboard_stable

theorem tensorboardPtr_fresh {M : Type} :
    FreshCopy (loadPtr (Cell.asTensorboard : Cell M → _) SubmarineTensorboard.load)
      (reachPtr Cell.asTensorboard SubmarineTensorboard.reach)
      (clonePtr Cell.asTensorboard Cell.tensorboard SubmarineTensorboard.clone) :=
  fresh_ptr _ _ _ _ _ (fun _ => rfl) tensorboard_stable tensorboard_fresh

theorem mlflowPtr_stable {M : Type} :
    Stable (loadPtr (Cell.asMlflow : Cell M → _) SubmarineMlflow.load)
      (reachPtr Cell.asMlflow SubmarineMlflow.reach) :=
  stable_ptr _ _ _ mlflow_stable

theorem mlflowPtr_fresh {M : Type} :
    FreshCopy (loadPtr (Cell.asMlflow : Cell M → _) SubmarineMlflow.load)
      (reachPtr Cell.asMlflow SubmarineMlflow.reach)
      (clonePtr Cell.asMlflow Cell.mlflow SubmarineMlflow.clone) :=
  fresh_ptr _ _ _ _ _ (fun _ => rfl) mlflow_stable mlflow_fresh

theorem minioPtr_stable {M : Type} :
    Stable (loadPtr (Cell.asMinio : Cell M → _) SubmarineMinio.load)
      (reachPtr Cell.asMinio SubmarineMinio.reach) :=
  stable_ptr _ _ _ minio_stable

theorem minioPtr_fresh {M : Type} :
    FreshCopy (loadPtr (Cell.asMinio : Cell M → _) SubmarineMinio.load)
      (reachPtr Cell.asMinio SubmarineMinio.reach)
      (clonePtr Cell.asMinio Cell.minio SubmarineMinio.clone) :=
  fresh_ptr _ _ _ _ _ (fun _ => rfl) minio_stable minio_fresh

theorem storagePtr_stable {M : Type} :
    Stable (loadPtr (Cell.asStorage : Cell M → _) loadScalar)
      (reachPtr Cell.asStorage reachScalar) :=
  stable_ptr _ _ _ stable_scalar

theorem storagePtr_fresh {M : Type} :
    FreshCopy (loadPtr (Cell.asStorage : Cell M → _) loadScalar)
      (reachPtr Cell.asStorage reachScalar)
      (clonePtr Cell.asStorage Cell.storage cloneScalar) :=
  fresh_ptr _ _ _ _ _ (fun _ => rfl) stable_scalar fresh_scalar

theorem spec_stable {M : Type} :
    Stable (SubmarineSpec.load : Heap M → _ → _) SubmarineSpec.reach := by
  intro H s x hx
  simp only [SubmarineSpec.load, Option.bind_eq_some, Option.map_eq_some'] at hx
  obtain ⟨sv, h1, db, h2, tb, h3, ml, h4, mi, h5, st, h6, rfl⟩ := hx
  obtain ⟨b1, s1⟩ := serverPtr_stable H s.Server sv h1
  obtain ⟨b2, s2⟩ := databasePtr_stable H s.Database db h2
  obtain ⟨b3, s3⟩ := tensorboardPtr_stable H s.Tensorboard tb h3
  obtain ⟨b4, s4⟩ := mlflowPtr_stable H s.Mlflow ml h4
  obtain ⟨b5, s5⟩ := minioPtr_stable H s.Minio mi h5
  obtain ⟨b6, s6⟩ := storagePtr_stable H s.Storage st h6
  constructor
  · intro a ha
    simp only [SubmarineSpec.reach, List.mem_append] at ha
    rcases ha with ((((ha | ha) | ha) | ha) | ha) | ha
    · exact b1 a ha
    · exact b2 a ha
    · exact b3 a ha
    · exact b4 a ha
    · exact b5 a ha
    · exact b6 a ha
  · intro H' hext
    obtain ⟨l1, r1⟩ := s1 H' hext
    obtain ⟨l2, r2⟩ := s2 H' hext
    obtain ⟨l3, r3⟩ := s3 H' hext
    obtain ⟨l4, r4⟩ := s4 H' hext
    obtain ⟨l5, r5⟩ := s5 H' hext
    obtain ⟨l6, r6⟩ := s6 H' hext
    simp [SubmarineSpec.load, SubmarineSpec.reach, l1, l2, l3, l4, l5, l6, r1, r2, r3, r4,
      r5, r6]

theorem spec_fresh {M : Type} :
    FreshCopy (SubmarineSpec.load : Heap M → _ → _) SubmarineSpec.reach SubmarineSpec.clone := by
  intro H s x hx
  simp only [SubmarineSpec.load, Option.bind_eq_some, Option.map_eq_some'] at hx
  obtain ⟨sv, h1, db, h2, tb, h3, ml, h4, mi, h5, st, h6, rfl⟩ := hx
  obtain ⟨H1, p1, c1, e1, l1, r1⟩ := serverPtr_fresh H s.Server sv h1
  have e01 : Extends H H1 := e1
  obtain ⟨H2, p2, c2, e2, l2, r2⟩ := databasePtr_fresh H1 s.Database db
    ((databasePtr_stable H s.Database db h2).2 H1 e01).1
  have e02 : Extends H H2 := extends_trans e01 e2
  obtain ⟨H3, p3, c3, e3, l3, r3⟩ := tensorboardPtr_fresh H2 s.Tensorboard tb
    ((tensorboardPtr_stable H s.Tensorboard tb h3).2 H2 e02).1
  have e03 : Extends H H3 := extends_trans e02 e3
  obtain ⟨H4, p4, c4, e4, l4, r4⟩ := mlflowPtr_fresh H3 s.Mlflow ml
    ((mlflowPtr_stable H s.Mlflow ml h4).2 H3 e03).1
  have e04 : Extends H H4 := extends_trans e03 e4
  obtain ⟨H5, p5, c5, e5, l5, r5⟩ := minioPtr_fresh H4 s.Minio mi
    ((minioPtr_stable H s.Minio mi h5).2 H4 e04).1
  have e05 : Extends H H5 := extends_trans e04 e5
  obtain ⟨H6, p6, c6, e6, l6, r6⟩ := storagePtr_fresh H5 s.Storage st
    ((storagePtr_stable H s.Storage st h6).2 H5 e05).1
  have e06 : Extends H H6 := extends_trans e05 e6
  have f6 : Extends H6 H6 := extends_refl H6
  have f5 : Extends H5 H6 := e6
  have f4 : Extends H4 H6 := extends_trans e5 f5
  have f3 : Extends H3 H6 := extends_trans e4 f4
  have f2 : Extends H2 H6 := extends_trans e3 f3
  have f1 : Extends H1 H6 := extends_trans e2 f2
  obtain ⟨L1, R1⟩ := lift_copy serverPtr_stable (extends_refl H) f1 l1 r1
  obtain ⟨L2, R2⟩ := lift_copy databasePtr_stable e01 f2 l2 r2
  obtain ⟨L3, R3⟩ := lift_copy tensorboardPtr_stable e02 f3 l3 r3
  obtain ⟨L4, R4⟩ := lift_copy mlflowPtr_stable e03 f4 l4 r4
  obtain ⟨L5, R5⟩ := lift_copy minioPtr_stable e04 f5 l5 r5
  obtain ⟨L6, R6⟩ := lift_copy storagePtr_stable e05 f6 l6 r6
  refine ⟨H6, ⟨s.Version, p1, p2, p3, p4, p5, p6⟩, ?_, e06, ?_, ?_⟩
  · simp [SubmarineSpec.clone, c1, c2, c3, c4, c5, c6]
  · simp [SubmarineSpec.load, L1, L2, L3, L4, L5, L6]
  · intro a ha
    simp only [SubmarineSpec.reach, List.mem_append] at ha
    rcases ha with ((((ha | ha) | ha) | ha) | ha) | ha
    · exact R1 a ha
    · exact R2 a ha
    · exact R3 a ha
    · exact R4 a ha
    · exact R5 a ha
    · exact R6 a ha

theorem submarine_stable {M : Type} :
    Stable (Submarine.load : Heap M → _ → _) Submarine.reach :=
  stable_field (fun v : Submarine M => v.Spec)
    (fun (v : Submarine M) (sp : V1alpha1.SubmarineSpec) =>
      (⟨v.TypeMeta, v.ObjectMeta, sp, v.Status⟩ : V1alpha1.Submarine M)) _ _ spec_stable

theorem submarine_fresh {M : Type} :
    FreshCopy (Submarine.load : Heap M → _ → _) Submarine.reach Submarine.clone :=
  fresh_field (fun v : Submarine M => v.Spec) (fun v sp => { v with Spec := sp })
    (fun (v : Submarine M) (sp : V1alpha1.SubmarineSpec) =>
      (⟨v.TypeMeta, v.ObjectMeta, sp, v.Status⟩ : V1alpha1.Submarine M)) _ _ _
    (fun _ _ => rfl) (fun _ _ => rfl) spec_fresh

theorem items_stable {M : Type} :
    Stable (loadItems : Heap M → _ → _) reachItems := by
  intro H vs
  induction vs with
  | nil =>
    intro x hx
    refine ⟨by simp [reachItems], ?_⟩
    intro H' _
    exact ⟨by simpa [loadItems] using hx, by simp [reachItems]⟩
  | cons v vs ih =>
    intro x hx
    simp only [loadItems, Option.bind_eq_some, Option.map_eq_some'] at hx
    obtain ⟨xv, hv, xs, hs, rfl⟩ := hx
    obtain ⟨b1, s1⟩ := submarine_stable H v xv hv
    obtain ⟨b2, s2⟩ := ih xs hs
    constructor
    · intro a ha
      simp only [reachItems, List.mem_append] at ha
      rcases ha with ha | ha
      · exact b1 a ha
      · exact b2 a ha
    · intro H' hext
      obtain ⟨l1, r1⟩ := s1 H' hext
      obtain ⟨l2, r2⟩ := s2 H' hext
      simp [loadItems, reachItems, l1, l2, r1, r2]

theorem items_fresh {M : Type} :
    FreshCopy (loadItems : Heap M → _ → _) reachItems cloneItems := by
  intro H vs
  induction vs generalizing H with
  | nil =>
    intro x hx
    exact ⟨H, [], rfl, extends_refl H, hx, by simp [reachItems]⟩
  | cons v vs ih =>
    intro x hx
    simp only [loadItems, Option.bind_eq_some, Option.map_eq_some'] at hx
    obtain ⟨xv, hv, xs, hs, rfl⟩ := hx
    obtain ⟨H1, c, c1, e1, l1, r1⟩ := submarine_fresh H v xv hv
    obtain ⟨H2, cs, c2, e2, l2, r2⟩ := ih H1 xs ((items_stable H vs xs hs).2 H1 e1).1
    obtain ⟨L1, R1⟩ := lift_copy submarine_stable (extends_refl H) e2 l1 r1
    obtain ⟨L2, R2⟩ := lift_copy items_stable e1 (extends_refl H2) l2 r2
    refine ⟨H2, c :: cs, ?_, extends_trans e1 e2, ?_, ?_⟩
    · simp [cloneItems, c1, c2]
    · simp [loadItems, L1, L2]
    · intro a ha
      simp only [reachItems, List.mem_append] at ha
      rcases ha with ha | ha
      · exact R1 a ha
      · exact R2 a ha

theorem list_stable {M L : Type} :
    Stable (SubmarineList.load : Heap M → SubmarineList M L → _) SubmarineList.reach :=
  stable_field (fun l : SubmarineList M L => l.Items)
    (fun (l : SubmarineList M L) (its : Option (List (V1alpha1.Submarine M))) =>
      (⟨l.TypeMeta, l.ListMeta, its⟩ : V1alpha1.SubmarineList M L)) _ _
    (stable_ptr Cell.asItems loadItems reachItems items_stable)

theorem list_fresh {M L : Type} :
    FreshCopy (SubmarineList.load : Heap M → SubmarineList M L → _) SubmarineList.reach
      SubmarineList.clone :=
  fresh_field (fun l : SubmarineList M L => l.Items) (fun l its => { l with Items := its })
    (fun (l : SubmarineList M L) (its : Option (List (V1alpha1.Submarine M))) =>
      (⟨l.TypeMeta, l.ListMeta, its⟩ : V1alpha1.SubmarineList M L)) _ _ _
    (fun _ _ => rfl) (fun _ _ => rfl)
    (fresh_ptr Cell.asItems Cell.items loadItems reachItems cloneItems (fun _ => rfl)
      items_stable items_fresh)

theorem independent_of_fresh {M T V : Type} {load : Heap M → T → Option V}
    {reach : Heap M → T → List Addr} {clone : Heap M → T → Option (Heap M × T)}
    (hS : Stable load reach) (hF : FreshCopy load reach clone) (H : Heap M) (t : T) (x : V)
    (hx : load H t = some x) :
    ∃ H' c, clone H t = some (H', c) ∧ Extends H H' ∧ load H' c = some x
      ∧ load H' t = some x
      ∧ (∀ a ∈ reach H' c, a ∉ reach H' t)
      ∧ (∀ a ∈ reach H' c, ∀ cell, load (H'.set a cell) t = some x) := by
  obtain ⟨H', c, hc, hext, hl, hr⟩ := hF H t x hx
  obtain ⟨hb, hst⟩ := hS H t x hx
  refine ⟨H', c, hc, hext, hl, (hst H' hext).1, ?_, ?_⟩
  · intro a ha hmem
    rw [(hst H' hext).2] at hmem
    exact absurd (hb a hmem) (Nat.not_lt.mpr (hr a ha).1)
  · intro a ha cell
    exact (hst _ (extends_set hext a (hr a ha).1 cell)).1

end Mem

namespace Mem

/-- C8: for a `Submarine` `v` that lies in the heap and reads as the value `x`
(and likewise for a `SubmarineList`), clone succeeds, only allocates, and returns
a copy that reads as the same value `x` while `v` still reads as `x`; no cell
reached through a pointer of the copy (a sub-spec cell, the `int32` or `bool`
cell behind `Replicas` or `Enabled`, the backing array of `Items`) is reached
from `v`, and whatever is written into such a cell, `v` still reads as `x`. -/
theorem clone_shares_nothing {M L : Type} (H : Heap M) (v : Submarine M)
    (x : V1alpha1.Submarine M) (hv : Submarine.load H v = some x) (l : SubmarineList M L)
    (y : V1alpha1.SubmarineList M L) (hl : SubmarineList.load H l = some y) :
    (∃ H' c, Submarine.clone H v = some (H', c) ∧ Extends H H'
      ∧ Submarine.load H' c = some x
      ∧ Submarine.load H' v = some x
      ∧ (∀ a ∈ Submarine.reach H' c, a ∉ Submarine.reach H' v)
      ∧ (∀ a ∈ Submarine.reach H' c, ∀ cell, Submarine.load (H'.set a cell) v = some x))
    ∧ (∃ H' c, SubmarineList.clone H l = some (H', c) ∧ Extends H H'
      ∧ SubmarineList.load H' c = some y
      ∧ SubmarineList.load H' l = some y
      ∧ (∀ a ∈ SubmarineList.reach H' c, a ∉ SubmarineList.reach H' l)
      ∧ (∀ a ∈ SubmarineList.reach H' c, ∀ cell,
          SubmarineList.load (H'.set a cell) l = some y)) :=
  ⟨independent_of_fresh submarine_stable submarine_fresh H v x hv,
    independent_of_fresh list_stable list_fresh H l y hl⟩

/-- Witness of C8: `exampleSubmarine` reads as `failedSubmarine` in
`exampleHeap` and `exampleList` as the list of that one element; the clone of
`exampleSubmarine` lies in five new cells (6 to 10) and reads as
`failedSubmarine`. -/
theorem clone_shares_nothing_witness :
    Submarine.load exampleHeap exampleSubmarine = some failedSubmarine
    ∧ SubmarineList.load exampleHeap exampleList
        = some ⟨exampleList.TypeMeta, exampleList.ListMeta, some [failedSubmarine]⟩
    ∧ Submarine.clone exampleHeap exampleSubmarine
        = some (exampleHeap ++ [Cell.int32 ⟨1, by decide⟩,
            Cell.server ⟨"submarine-server:0.7.0", some 6⟩, Cell.bool true,
            Cell.tensorboard ⟨some 8, "10Gi"⟩, Cell.minio ⟨none, ""⟩],
          ⟨failedSubmarine.TypeMeta, failedSubmarine.ObjectMeta,
            ⟨"0.7.0", some 7, none, some 9, none, some 10, none⟩, failedSubmarine.Status⟩)
    ∧ (∃ H' c, Submarine.clone exampleHeap exampleSubmarine = some (H', c)
        ∧ Submarine.load H' c = some failedSubmarine
        ∧ ∀ a ∈ Submarine.reach H' c, ∀ cell,
            Submarine.load (H'.set a cell) exampleSubmarine = some failedSubmarine) :=
  ⟨rfl, rfl, rfl,
    match (clone_shares_nothing exampleHeap exampleSubmarine failedSubmarine rfl
        exampleList ⟨exampleList.TypeMeta, exampleList.ListMeta, some [failedSubmarine]⟩
        rfl).1 with
    | ⟨H', c, h1, _, h3, _, _, h6⟩ => ⟨H', c, h1, h3, h6⟩⟩

end Mem

end V1alpha1
